import Mathlib

/-!
Shallow embedding of the `pochta` addressable channel registry
(src/lib.rs and src/waker.rs) together with proofs about the behaviour
of its registry engine, its handles, its teardown logic, and its
lock-free `AtomicWaker` cell.

Part 1: the registry engine (src/lib.rs).

* Keys, values and senders are type parameters, as in the Rust generics.
  A destination's `try_send` behaviour (the `Sender` trait) is a
  parameter function `trySend : S → T → Except (SendError T) Unit`.
* The `HashMap<K, S>` is embedded as an association list with unique
  keys; `insert` overwrites, `remove` deletes.
* The mpsc receiver is embedded as the list of currently queued
  messages plus a `connected` flag (`false` once every producer
  endpoint is gone).  `try_recv` yields the head, `Empty` on an empty
  queue while connected, `Disconnected` on an empty queue otherwise.
* `Registry::process` drains the queue and returns the new mapping, the
  trace of `try_send` invocations it made (in dequeue order), the
  `Poll` result, and the waker it registered with the wake cell
  (if any).
-/

set_option maxHeartbeats 1000000

namespace Pochta

/-- `SendErrorKind` (src/lib.rs): the only kind is `Closed`. -/
inductive SendErrorKind : Type
  | Closed
deriving DecidableEq

/-- `SendErrorKind::is_closed` (src/lib.rs). -/
def SendErrorKind.is_closed : SendErrorKind → Bool
  | .Closed => true

/-- `SendError` (src/lib.rs): an error kind plus the undelivered message. -/
structure SendError (T : Type) : Type where
  kind : SendErrorKind
  message : T
deriving DecidableEq

/-- Control messages (src/lib.rs `enum Message`). -/
inductive Message (K T S : Type) : Type
  | Subscribe (key : K) (channel : S)
  | Unsubscribe (key : K)
  | Msg (key : K) (message : T)
deriving DecidableEq

/-- `Cancelled` (src/lib.rs): remote end dropped. -/
inductive Cancelled : Type
  | mk
deriving DecidableEq

/-- `core::task::Poll ` as used by `Registry::process`. -/
inductive Poll (A : Type) : Type
  | Ready (a : A)
  | Pending
deriving DecidableEq

variable {K T S W : Type}

/-- `HashMap::remove` on the association-list embedding of the mapping. -/
def removeKey [DecidableEq K] (key : K) (m : List (K × S)) : List (K × S) :=
  m.filter (fun p => decide (p.1 ≠ key))

/-- `HashMap::insert` on the association-list embedding: overwrite, not merge. -/
def insertKey [DecidableEq K] (key : K) (channel : S) (m : List (K × S)) : List (K × S) :=
  (key, channel) :: removeKey key m

/-- `HashMap::get`-style lookup on the association-list embedding. -/
def lookupKey [DecidableEq K] (key : K) (m : List (K × S)) : Option S :=
  (m.find? (fun p => decide (p.1 = key))).map (·.2)

/-- Result of one `Registry::process` call: the mapping afterwards, the trace of
`try_send` attempts made (in dequeue order), the returned `Poll`, and the waker
registered with the wake cell (if the empty queue was reached while connected). -/
structure ProcResult (K T S W : Type) : Type where
  registry : List (K × S)
  attempts : List (S × T)
  result : Poll Cancelled
  registered : Option W
deriving DecidableEq

/-- `Registry::process` (src/lib.rs, lines 164-198): drain the queue, applying
each control message in dequeue order; on `Empty` register the caller's waker
and report `Pending`; on `Disconnected` report `Ready(Cancelled)`. -/
def Registry.process [DecidableEq K] (trySend : S → T → Except (SendError T) Unit) (waker : W)
    (registry : List (K × S)) (queue : List (Message K T S)) (connected : Bool) :
    ProcResult K T S W :=
  match queue with
  | [] =>
    -- `try_recv` on the drained queue: `Empty` while a producer endpoint
    -- remains, `Disconnected` otherwise.
    if connected then
      { registry := registry, attempts := [], result := .Pending, registered := some waker }
    else
      { registry := registry, attempts := [], result := .Ready .mk, registered := none }
  | .Subscribe key channel :: rest =>
    Registry.process trySend waker (insertKey key channel registry) rest connected
  | .Unsubscribe key :: rest =>
    Registry.process trySend waker (removeKey key registry) rest connected
  | .Msg key message :: rest =>
    match lookupKey key registry with
    | some channel =>
      match trySend channel message with
      | .ok _ =>
        let r := Registry.process trySend waker registry rest connected
        { r with attempts := (channel, message) :: r.attempts }
      | .error error =>
        match error.kind with
        | .Closed =>
          let r := Registry.process trySend waker (removeKey key registry) rest connected
          { r with attempts := (channel, message) :: r.attempts }
    | none => Registry.process trySend waker registry rest connected

/-- Effect of a single control message on the mapping, together with the
`try_send` attempts it triggers (the body of the `Ok(message)` arm of
`Registry::process`). -/
def applyMessage [DecidableEq K] (trySend : S → T → Except (SendError T) Unit)
    (registry : List (K × S)) : Message K T S → List (K × S) × List (S × T)
  | .Subscribe key channel => (insertKey key channel registry, [])
  | .Unsubscribe key => (removeKey key registry, [])
  | .Msg key message =>
    match lookupKey key registry with
    | some channel =>
      match trySend channel message with
      | .ok _ => (registry, [(channel, message)])
      | .error error =>
        match error.kind with
        | .Closed => (removeKey key registry, [(channel, message)])
    | none => (registry, [])

/-- The mapping after draining a whole queue of control messages. -/
def registryAfter [DecidableEq K] (trySend : S → T → Except (SendError T) Unit)
    (registry : List (K × S)) : List (Message K T S) → List (K × S)
  | [] => registry
  | msg :: rest => registryAfter trySend (applyMessage trySend registry msg).1 rest

/-- The cooperative driver's single step (`<Registry as Future>::poll`,
src/lib.rs lines 201-209): it hands the context's waker to `Registry::process`. -/
def Registry.pollStep [DecidableEq K] (trySend : S → T → Except (SendError T) Unit)
    (ctxWaker : W) (registry : List (K × S)) (queue : List (Message K T S))
    (connected : Bool) : ProcResult K T S W :=
  Registry.process trySend ctxWaker registry queue connected

/-- One iteration of the blocking driver's loop (`Registry::run`, src/lib.rs
lines 152-162): it hands a waker built from the current thread to
`Registry::process`; `Pending` is answered by parking the thread. -/
def Registry.runStep [DecidableEq K] (trySend : S → T → Except (SendError T) Unit)
    (currentThread : W) (registry : List (K × S)) (queue : List (Message K T S))
    (connected : Bool) : ProcResult K T S W :=
  Registry.process trySend currentThread registry queue connected

/-- Producer-side state shared by the `Channel` handles: the queued control
messages, whether the engine's receiver endpoint still exists, and how many
times `wake()` has been fired on the shared wake cell. -/
structure ChanState (K T S : Type) : Type where
  queue : List (Message K T S)
  engineAlive : Bool
  wakes : Nat
deriving DecidableEq

/-- `Channel::send` (src/lib.rs, lines 221-229): enqueue the control message;
on success fire `wake()` on the shared wake cell and return `Ok(())`, otherwise
return `Err(Cancelled)`.  The mpsc send fails exactly when the receiver
(the registry engine's side) has been torn down. -/
def Channel.send (st : ChanState K T S) (msg : Message K T S) :
    ChanState K T S × Except Cancelled Unit :=
  if st.engineAlive then
    ({ st with queue := st.queue ++ [msg], wakes := st.wakes + 1 }, .ok ())
  else
    (st, .error .mk)

/-- `Channel::subscribe` (src/lib.rs). -/
def Channel.subscribe (st : ChanState K T S) (key : K) (channel : S) :
    ChanState K T S × Except Cancelled Unit :=
  Channel.send st (.Subscribe key channel)

/-- `Channel::unsubscribe` (src/lib.rs). -/
def Channel.unsubscribe (st : ChanState K T S) (key : K) :
    ChanState K T S × Except Cancelled Unit :=
  Channel.send st (.Unsubscribe key)

/-- `Channel::send_to` (src/lib.rs). -/
def Channel.sendTo (st : ChanState K T S) (key : K) (msg : T) :
    ChanState K T S × Except Cancelled Unit :=
  Channel.send st (.Msg key msg)

/-- `true` iff the control message concerns the given key. -/
def Message.mentionsKey [DecidableEq K] (key : K) : Message K T S → Bool
  | .Subscribe k _ => decide (k = key)
  | .Unsubscribe k => decide (k = key)
  | .Msg k _ => decide (k = key)

/-!
Part 2: the `AtomicWaker` wake cell (src/waker.rs), embedded as a small-step
interleaved transition system.

* A waker value is `Option Nat`: `none` is the no-op waker installed by
  `AtomicWaker::new` and swapped back in whenever a stored waker is taken
  out; `some n` is a real waker identity.  `Waker::will_wake` compares
  waker identities, which is equality in this embedding.
* The atomic `state` byte is a `Nat` built from the bits `REGISTERING = 0b01`
  and `WAKING = 0b10`; `WAITING = 0` is the idle state.
* A call to `AtomicWaker::register_ref` or `AtomicWaker::wake` is a thread
  whose program counter records how far through the function's sequence of
  atomic actions it has come.  Each program counter has exactly one next
  action, so a thread's step is a function of the shared cell; the global
  system interleaves the threads, one atomic action at a time.
* `fired` records every waker passed to `Waker::wake`/`wake_by_ref`
  (most recent first); `slotFired` records the subset that was obtained by
  swapping the slot out, and `stores` records every waker cloned into the
  slot by `register_ref` — both are history variables used to state the
  at-most-once-per-registration property.
-/

/-- A waker identity: `none` is the no-op waker, `some n` a real waker. -/
abbrev Waker : Type := Option Nat

/-- `Waker::will_wake` on waker identities (src/waker.rs line 176). -/
def Waker.willWake (a b : Waker) : Bool := a == b

/-- Idle state (src/waker.rs `WAITING`). -/
def WAITING : Nat := 0

/-- A new waker value is being registered with the cell (src/waker.rs `REGISTERING`). -/
def REGISTERING : Nat := 1

/-- The waker currently registered is being woken (src/waker.rs `WAKING`). -/
def WAKING : Nat := 2

/-- Program counter of an in-flight `AtomicWaker::register_ref(w)` call.
`start`: before the entry compare-exchange `WAITING → REGISTERING`.
`locked`: the compare-exchange succeeded; before mutating the slot.
`mutated`: slot mutated; before the exit compare-exchange `REGISTERING → WAITING`.
`casFailed`: the exit compare-exchange failed; before swapping the slot out.
`failSwapped`: slot swapped with the no-op waker (`saved` holds the old slot
content); before the `StateRestore` guard stores `WAITING`.
`failStored`: `WAITING` stored; before firing `saved`. -/
inductive RegPc : Type
  | start (w : Waker)
  | locked (w : Waker)
  | mutated
  | casFailed
  | failSwapped (saved : Waker)
  | failStored (saved : Waker)
  | done
deriving DecidableEq

/-- Program counter of an in-flight `AtomicWaker::wake()` call.
`start`: before `fetch_or(WAKING)`.
`acquired`: `fetch_or` observed `WAITING` (the waking lock is held); before
swapping the slot with the no-op waker.
`swapped`: slot swapped out into `saved`; before `fetch_and(!WAKING)`.
`cleared`: lock released; before firing `saved`. -/
inductive WakePc : Type
  | start
  | acquired
  | swapped (saved : Waker)
  | cleared (saved : Waker)
  | done
deriving DecidableEq

/-- A thread running one call into the wake cell. -/
inductive Thread : Type
  | reg (pc : RegPc)
  | wak (pc : WakePc)
deriving DecidableEq

/-- A finished thread. -/
def Thread.isDone : Thread → Bool
  | .reg .done => true
  | .wak .done => true
  | _ => false

/-- Global configuration: the cell's atomic status byte and waker slot, the
in-flight threads, and the history variables. -/
structure Config : Type where
  status : Nat
  slot : Waker
  threads : List Thread
  fired : List Waker
  slotFired : List Waker
  stores : List Waker
deriving DecidableEq

/-- Outcome of one atomic action of a thread: its new program counter, the
cell afterwards, the waker it fired (if any, tagged with whether it was
obtained by swapping the slot out), and the waker it stored into the slot
(if any). -/
structure StepOut : Type where
  thread : Thread
  status : Nat
  slot : Waker
  firedNow : Option Waker
  fromSlot : Bool
  storedNow : Option Waker
deriving DecidableEq

/-- The single atomic action a thread performs next, as a function of the
shared cell (src/waker.rs: `impl_register!` expanded by `register_ref`, and
`wake`).  Finished threads do nothing. -/
def threadStep : Thread → Nat → Waker → StepOut
  | .reg (.start w), st, sl =>
    -- entry `compare_exchange(WAITING, REGISTERING)` and the match on the
    -- (possibly failed) observed value
    if st = WAITING then
      ⟨.reg (.locked w), REGISTERING, sl, none, false, none⟩
    else if st = WAKING then
      -- `wake` holds the slot: fire the new waker by reference instead
      ⟨.reg .done, st, sl, some w, false, none⟩
    else
      -- another `register` holds the lock: drop the call, touch nothing
      ⟨.reg .done, st, sl, none, false, none⟩
  | .reg (.locked w), st, sl =>
    -- `if !(*self.waker.get()).will_wake(waker) { ptr::swap(...) }`
    if sl.willWake w then
      ⟨.reg .mutated, st, sl, none, false, none⟩
    else
      ⟨.reg .mutated, st, w, none, false, some w⟩
  | .reg .mutated, st, sl =>
    -- exit `compare_exchange(REGISTERING, WAITING)`
    if st = REGISTERING then
      ⟨.reg .done, WAITING, sl, none, false, none⟩
    else
      ⟨.reg .casFailed, st, sl, none, false, none⟩
  | .reg .casFailed, st, sl =>
    -- `ptr::swap(self.waker.get(), &mut waker)` with a fresh no-op waker
    ⟨.reg (.failSwapped sl), st, none, none, false, none⟩
  | .reg (.failSwapped saved), st, sl =>
    -- `drop(state_guard)`: `self.state.store(WAITING, Release)`
    ⟨.reg (.failStored saved), WAITING, sl, none, false, none⟩
  | .reg (.failStored saved), st, sl =>
    -- `waker.wake()` on the swapped-out waker
    ⟨.reg .done, st, sl, some saved, true, none⟩
  | .reg .done, st, sl => ⟨.reg .done, st, sl, none, false, none⟩
  | .wak .start, st, sl =>
    -- `fetch_or(WAKING, AcqRel)` and the match on its old value
    if st = WAITING then
      ⟨.wak .acquired, st ||| WAKING, sl, none, false, none⟩
    else
      ⟨.wak .done, st ||| WAKING, sl, none, false, none⟩
  | .wak .acquired, st, sl =>
    -- `ptr::swap(self.waker.get(), &mut waker)` with a fresh no-op waker
    ⟨.wak (.swapped sl), st, none, none, false, none⟩
  | .wak (.swapped saved), st, sl =>
    -- `fetch_and(!WAKING, Release)`: clear the WAKING bit (`!2u8 = 253`)
    ⟨.wak (.cleared saved), st &&& 253, sl, none, false, none⟩
  | .wak (.cleared saved), st, sl =>
    -- `waker.wake()` on the swapped-out waker
    ⟨.wak .done, st, sl, some saved, true, none⟩
  | .wak .done, st, sl => ⟨.wak .done, st, sl, none, false, none⟩

/-- Perform thread `i`'s next atomic action on the configuration. -/
def applyStep (c : Config) (i : Nat) : Config :=
  match c.threads.get? i with
  | none => c
  | some t =>
    let o := threadStep t c.status c.slot
    { status := o.status
      slot := o.slot
      threads := c.threads.set i o.thread
      fired := match o.firedNow with | some w => w :: c.fired | none => c.fired
      slotFired :=
        match o.firedNow with
        | some w => if o.fromSlot then w :: c.slotFired else c.slotFired
        | none => c.slotFired
      stores := match o.storedNow with | some w => w :: c.stores | none => c.stores }

/-- Interleaved global step: some unfinished thread performs its next atomic
action. -/
def Step (c c' : Config) : Prop :=
  ∃ i t, c.threads.get? i = some t ∧ t.isDone = false ∧ c' = applyStep c i

/-- A thread that has not started executing yet: a `register_ref` call before
its entry compare-exchange or a `wake` call before its `fetch_or`. -/
def Thread.isInitial : Thread → Bool
  | .reg (.start _) => true
  | .wak .start => true
  | _ => false

/-- Configuration of a fresh cell (`AtomicWaker::new`, src/waker.rs lines
156-163: status `WAITING`, slot holding the no-op waker) with the given
threads about to run. -/
def initConfig (ts : List Thread) : Config :=
  { status := WAITING, slot := none, threads := ts,
    fired := [], slotFired := [], stores := [] }

/-- Configurations reachable from a fresh cell by interleaving the threads. -/
def Reachable (ts : List Thread) (c : Config) : Prop :=
  Relation.ReflTransGen Step (initConfig ts) c

/-- Threads holding the registering lock: a `register_ref` call between a
successful entry compare-exchange and the point where it gives the status
byte back. -/
def Thread.regHolder : Thread → Bool
  | .reg (.locked _) => true
  | .reg .mutated => true
  | .reg .casFailed => true
  | .reg (.failSwapped _) => true
  | _ => false

/-- Threads holding the waking lock: a `wake` call between a `fetch_or` that
observed `WAITING` and its `fetch_and(!WAKING)`. -/
def Thread.wakHolder : Thread → Bool
  | .wak .acquired => true
  | .wak (.swapped _) => true
  | _ => false

/-- A `register_ref` thread between its entry and exit compare-exchanges. -/
def Thread.inRegCrit : Thread → Bool
  | .reg (.locked _) => true
  | .reg .mutated => true
  | _ => false

/-- A `register_ref` thread past a failed exit compare-exchange but still
holding the status byte. -/
def Thread.inRegFail : Thread → Bool
  | .reg .casFailed => true
  | .reg (.failSwapped _) => true
  | _ => false

/-- A thread privately holding a waker it swapped out of the slot and has not
fired yet. -/
def Thread.holdsSaved (w : Waker) : Thread → Bool
  | .wak (.swapped saved) => saved == w
  | .wak (.cleared saved) => saved == w
  | .reg (.failSwapped saved) => saved == w
  | .reg (.failStored saved) => saved == w
  | _ => false

/-- Inductive invariant tying a status byte to the lock-holding threads:
with no holder the cell is idle; with a register holder the status is
`REGISTERING` or `REGISTERING ||| WAKING` (and exactly the latter after a
failed exit compare-exchange); with a wake holder it is exactly `WAKING`. -/
def InvAt (st : Nat) (l : List Thread) : Prop :=
  (l.countP Thread.regHolder = 0 ∧ l.countP Thread.wakHolder = 0 ∧ st = WAITING) ∨
  (l.countP Thread.regHolder = 1 ∧ l.countP Thread.wakHolder = 0 ∧
    (∀ t ∈ l,
      (t.inRegCrit = true → st = REGISTERING ∨ st = 3) ∧
      (t.inRegFail = true → st = 3))) ∨
  (l.countP Thread.regHolder = 0 ∧ l.countP Thread.wakHolder = 1 ∧ st = WAKING)

/-- The invariant on a configuration. -/
def Inv (c : Config) : Prop := InvAt c.status c.threads

/-- History invariant for at-most-once firing: a non-noop waker can be fired
from the slot at most as many times as `register_ref` stored it there; wakers
swapped out but not yet fired, and the slot itself, count against the same
budget. -/
def BudgetAt (slotFired : List Waker) (threads : List Thread) (slot : Waker)
    (stores : List Waker) : Prop :=
  ∀ w : Waker, w ≠ none →
    slotFired.count w + threads.countP (Thread.holdsSaved w) +
      (if slot = w then 1 else 0) ≤ stores.count w

/-- The fire budget invariant on a configuration. -/
def FireBudget (c : Config) : Prop :=
  BudgetAt c.slotFired c.threads c.slot c.stores

/-!
Part 3: teardown of a `Channel` handle (`<Channel as Drop>::drop`, src/lib.rs
lines 269-286), embedded as a small interleaved program per dropping handle.

* `senders` counts the live mpsc producer endpoints, `strong` the strong count
  of the shared `Arc<State>` (one reference per live handle plus one held by
  the registry engine), and `wakes` how many times `wake()` was fired.
* Dropping a handle performs three separate actions: sever the producer
  endpoint (`ManuallyDrop::drop(&mut self.channel)`), read
  `Arc::strong_count(&self.state)` and fire `wake()` if it is at most 2,
  and finally release its own `Arc` reference (the implicit field drop),
  which is what actually decrements the strong count.
-/

/-- Program counter of one handle being dropped. -/
inductive DropPc : Type
  | start
  | severed
  | checked
  | done
deriving DecidableEq

/-- Global teardown configuration. -/
structure DropConfig : Type where
  senders : Nat
  strong : Nat
  wakes : Nat
  threads : List DropPc
deriving DecidableEq

/-- One atomic action of a dropping handle (src/lib.rs lines 271-285). -/
def dropThreadStep : DropPc → DropConfig → DropPc × DropConfig
  | .start, c =>
    -- `ManuallyDrop::drop(&mut self.channel)`: sever this producer endpoint
    (.severed, { c with senders := c.senders - 1 })
  | .severed, c =>
    -- `if Arc::strong_count(&self.state) <= 2 { self.state.waker.wake(); }`
    if c.strong ≤ 2 then (.checked, { c with wakes := c.wakes + 1 })
    else (.checked, c)
  | .checked, c =>
    -- implicit drop of the handle's `Arc<State>` field
    (.done, { c with strong := c.strong - 1 })
  | .done, c => (.done, c)

/-- Perform dropping thread `i`'s next action. -/
def applyDropStep (c : DropConfig) (i : Nat) : DropConfig :=
  match c.threads.get? i with
  | none => c
  | some pc =>
    let o := dropThreadStep pc c
    { o.2 with threads := c.threads.set i o.1 }

/-- Interleaved teardown step. -/
def DropStep (c c' : DropConfig) : Prop :=
  ∃ i pc, c.threads.get? i = some pc ∧ pc ≠ .done ∧ c' = applyDropStep c i

/-- Initial teardown configuration: `n` live handles about to be dropped, `n`
producer endpoints, and a strong count of `n + 1` (the registry engine holds
the extra reference). -/
def dropInit (n : Nat) : DropConfig :=
  { senders := n, strong := n + 1, wakes := 0, threads := List.replicate n .start }

/-- Teardown configurations reachable from `n` live handles being dropped. -/
def DropReachable (n : Nat) (c : DropConfig) : Prop :=
  Relation.ReflTransGen DropStep (dropInit n) c

/-- A concrete `Sender` behaviour on natural-number senders, used to evaluate
the engine on concrete inputs: sender `0` reports `Closed`, everything else
accepts the value. -/
def natTrySend : Nat → Nat → Except (SendError Nat) Unit :=
  fun s t => if s = 0 then .error { kind := .Closed, message := t } else .ok ()

/-!
Helper lemmas about the registry engine.
-/

theorem process_cons [DecidableEq K] (tS : S → T → Except (SendError T) Unit) (wk : W)
    (m : List (K × S)) (msg : Message K T S) (rest : List (Message K T S)) (conn : Bool) :
    Registry.process tS wk m (msg :: rest) conn =
      { Registry.process tS wk (applyMessage tS m msg).1 rest conn with
        attempts := (applyMessage tS m msg).2 ++
          (Registry.process tS wk (applyMessage tS m msg).1 rest conn).attempts } := by
  cases msg with
  | Subscribe k s => simp [Registry.process, applyMessage]
  | Unsubscribe k => simp [Registry.process, applyMessage]
  | Msg k t =>
    simp only [Registry.process, applyMessage]
    cases h : lookupKey k m with
    | none => simp
    | some s =>
      cases h2 : tS s t with
      | ok u => simp [h2]
      | error e => cases hk : e.kind with
        | Closed => simp [h2]

theorem process_registry_waker_irrel [DecidableEq K] (tS : S → T → Except (SendError T) Unit)
    (w₁ w₂ : W) (m : List (K × S)) (q : List (Message K T S)) (conn : Bool) :
    (Registry.process tS w₁ m q conn).registry = (Registry.process tS w₂ m q conn).registry ∧
    (Registry.process tS w₁ m q conn).attempts = (Registry.process tS w₂ m q conn).attempts ∧
    (Registry.process tS w₁ m q conn).result = (Registry.process tS w₂ m q conn).result := by
  induction q generalizing m with
  | nil => cases conn <;> simp [Registry.process]
  | cons msg rest ih =>
    rw [process_cons, process_cons]
    rcases ih (applyMessage tS m msg).1 with ⟨h1, h2, h3⟩
    exact ⟨h1, by rw [h2], h3⟩

theorem process_registered [DecidableEq K] (tS : S → T → Except (SendError T) Unit)
    (wk : W) (m : List (K × S)) (q : List (Message K T S)) (conn : Bool) :
    (Registry.process tS wk m q conn).registered = if conn then some wk else none := by
  induction q generalizing m with
  | nil => cases conn <;> simp [Registry.process]
  | cons msg rest ih => rw [process_cons]; exact ih _

theorem process_result_eq [DecidableEq K] (tS : S → T → Except (SendError T) Unit)
    (wk : W) (m : List (K × S)) (q : List (Message K T S)) (conn : Bool) :
    (Registry.process tS wk m q conn).result = if conn then .Pending else .Ready .mk := by
  induction q generalizing m with
  | nil => cases conn <;> simp [Registry.process]
  | cons msg rest ih => rw [process_cons]; exact ih _

theorem lookupKey_cons [DecidableEq K] (k : K) (p : K × S) (rest : List (K × S)) :
    lookupKey k (p :: rest) = if p.1 = k then some p.2 else lookupKey k rest := by
  by_cases hp : p.1 = k <;> simp [lookupKey, List.find?, hp]

theorem removeKey_cons [DecidableEq K] (k : K) (p : K × S) (rest : List (K × S)) :
    removeKey k (p :: rest) = if p.1 = k then removeKey k rest else p :: removeKey k rest := by
  by_cases hp : p.1 = k <;> simp [removeKey, List.filter, hp]

theorem lookupKey_removeKey_self [DecidableEq K] (k : K) (m : List (K × S)) :
    lookupKey k (removeKey k m) = none := by
  induction m with
  | nil => simp [lookupKey, removeKey]
  | cons p rest ih =>
    rw [removeKey_cons]
    by_cases hp : p.1 = k
    · simpa [hp] using ih
    · simpa [hp, lookupKey_cons] using ih

theorem lookupKey_removeKey_ne [DecidableEq K] (k k' : K) (m : List (K × S)) (h : k' ≠ k) :
    lookupKey k' (removeKey k m) = lookupKey k' m := by
  induction m with
  | nil => simp [lookupKey, removeKey]
  | cons p rest ih =>
    rw [removeKey_cons, lookupKey_cons]
    by_cases hp : p.1 = k
    · simpa [hp, Ne.symm h] using ih
    · rw [if_neg hp, lookupKey_cons, ih]

theorem lookupKey_insertKey_self [DecidableEq K] (k : K) (s : S) (m : List (K × S)) :
    lookupKey k (insertKey k s m) = some s := by
  simp [insertKey, lookupKey_cons]

theorem lookupKey_insertKey_ne [DecidableEq K] (k k' : K) (s : S) (m : List (K × S))
    (h : k' ≠ k) : lookupKey k' (insertKey k s m) = lookupKey k' m := by
  have hk : k ≠ k' := fun hc => h hc.symm
  rw [insertKey, lookupKey_cons, if_neg hk, lookupKey_removeKey_ne k k' m h]

theorem removeKey_of_lookup_none [DecidableEq K] (k : K) (m : List (K × S))
    (h : lookupKey k m = none) : removeKey k m = m := by
  induction m with
  | nil => simp [removeKey]
  | cons p rest ih =>
    rw [lookupKey_cons] at h
    by_cases hp : p.1 = k
    · simp [hp] at h
    · rw [if_neg hp] at h
      rw [removeKey_cons, if_neg hp, ih h]

theorem lookupKey_removeKey_none [DecidableEq K] (k k' : K) (m : List (K × S))
    (h : lookupKey k m = none) : lookupKey k (removeKey k' m) = none := by
  by_cases hk : k = k'
  · subst hk; exact lookupKey_removeKey_self k m
  · rw [lookupKey_removeKey_ne k' k m hk]; exact h

theorem applyMessage_lookup_none [DecidableEq K] (tS : S → T → Except (SendError T) Unit)
    (m : List (K × S)) (k : K) (msg : Message K T S) (hm : lookupKey k m = none)
    (hmsg : ∀ s, msg ≠ Message.Subscribe k s) :
    lookupKey k (applyMessage tS m msg).1 = none := by
  cases msg with
  | Subscribe k' s =>
    have hne : k ≠ k' := by
      intro hc; exact hmsg s (by rw [hc])
    simpa [applyMessage] using (lookupKey_insertKey_ne k' k s m hne).trans hm
  | Unsubscribe k' => simpa [applyMessage] using lookupKey_removeKey_none k k' m hm
  | Msg k' t =>
    simp only [applyMessage]
    cases hl : lookupKey k' m with
    | none => simpa using hm
    | some s =>
      cases hts : tS s t with
      | ok u => simpa [hts] using hm
      | error e =>
        cases hke : e.kind with
        | Closed => simpa [hts, hke] using lookupKey_removeKey_none k k' m hm

theorem applyMessage_lookup_some [DecidableEq K] (tS : S → T → Except (SendError T) Unit)
    (m : List (K × S)) (k : K) (s : S) (msg : Message K T S) (hm : lookupKey k m = some s)
    (hmsg : msg.mentionsKey k = false) :
    lookupKey k (applyMessage tS m msg).1 = some s := by
  cases msg with
  | Subscribe k' s' =>
    have hne : k ≠ k' := by
      intro hc; subst hc; simp [Message.mentionsKey] at hmsg
    simpa [applyMessage] using (lookupKey_insertKey_ne k' k s' m hne).trans hm
  | Unsubscribe k' =>
    have hne : k ≠ k' := by
      intro hc; subst hc; simp [Message.mentionsKey] at hmsg
    simpa [applyMessage] using (lookupKey_removeKey_ne k' k m hne).trans hm
  | Msg k' t =>
    have hne : k ≠ k' := by
      intro hc; subst hc; simp [Message.mentionsKey] at hmsg
    simp only [applyMessage]
    cases hl : lookupKey k' m with
    | none => simpa using hm
    | some s' =>
      cases hts : tS s' t with
      | ok u => simpa [hts] using hm
      | error e =>
        cases hke : e.kind with
        | Closed => simpa [hts, hke] using (lookupKey_removeKey_ne k' k m hne).trans hm

theorem process_skip_deliver [DecidableEq K] (tS : S → T → Except (SendError T) Unit)
    (wk : W) (conn : Bool) (k : K) (t : T) (q2 q3 : List (Message K T S))
    (m : List (K × S)) (hm : lookupKey k m = none)
    (hq : ∀ s, Message.Subscribe k s ∉ q2) :
    Registry.process tS wk m (q2 ++ .Msg k t :: q3) conn =
      Registry.process tS wk m (q2 ++ q3) conn := by
  induction q2 generalizing m with
  | nil => simp [Registry.process, hm]
  | cons msg rest ih =>
    simp only [List.cons_append]
    rw [process_cons, process_cons]
    have hm' : lookupKey k (applyMessage tS m msg).1 = none :=
      applyMessage_lookup_none tS m k msg hm
        (fun s hc => hq s (by rw [hc]; exact List.mem_cons_self _ _))
    rw [ih (applyMessage tS m msg).1 hm' (fun s hs => hq s (List.mem_cons_of_mem _ hs))]

theorem process_deliver_mem [DecidableEq K] (tS : S → T → Except (SendError T) Unit)
    (wk : W) (conn : Bool) (k : K) (s : S) (t : T) (q2 q3 : List (Message K T S))
    (m : List (K × S)) (hm : lookupKey k m = some s)
    (hq : ∀ msg ∈ q2, Message.mentionsKey k msg = false) :
    (s, t) ∈ (Registry.process tS wk m (q2 ++ .Msg k t :: q3) conn).attempts := by
  induction q2 generalizing m with
  | nil =>
    simp only [List.nil_append]
    rw [process_cons]
    simp only [applyMessage, hm]
    cases h2 : tS s t with
    | ok u => simp
    | error e =>
      cases e.kind with
      | Closed => simp
  | cons msg rest ih =>
    simp only [List.cons_append]
    rw [process_cons]
    have hm' : lookupKey k (applyMessage tS m msg).1 = some s :=
      applyMessage_lookup_some tS m k s msg hm (hq msg (List.mem_cons_self _ _))
    have := ih (applyMessage tS m msg).1 hm'
      (fun msg' hmem => hq msg' (List.mem_cons_of_mem _ hmem))
    simp only [ProcResult.mk.injEq]
    exact List.mem_append_right _ this

/-!
Claim theorems about the registry engine.
-/

/-- Claim C2: for every `Deliver` (`Msg`) control message processed by the
engine: an absent key discards the value silently with the mapping unchanged;
a present key whose destination's `try_send` succeeds leaves the mapping
unchanged and processing continues; a `try_send` failure (whose kind can only
be `Closed`) removes the entry, makes exactly one delivery attempt (no retry,
no buffering), and never surfaces the failure — the remaining processing and
the `Poll` outcome are exactly those of continuing, and the producer-facing
result of `send_to` does not depend on any delivery outcome at all. -/
theorem C2_deliver_error_handling [DecidableEq K]
    (tS : S → T → Except (SendError T) Unit) (wk : W) (m : List (K × S))
    (k : K) (t : T) (rest : List (Message K T S)) (conn : Bool) :
    (lookupKey k m = none →
      Registry.process tS wk m (.Msg k t :: rest) conn = Registry.process tS wk m rest conn) ∧
    (∀ s, lookupKey k m = some s → tS s t = .ok () →
      Registry.process tS wk m (.Msg k t :: rest) conn =
        { Registry.process tS wk m rest conn with
          attempts := (s, t) :: (Registry.process tS wk m rest conn).attempts }) ∧
    (∀ s e, lookupKey k m = some s → tS s t = .error e →
      e.kind = .Closed ∧
      Registry.process tS wk m (.Msg k t :: rest) conn =
        { Registry.process tS wk (removeKey k m) rest conn with
          attempts := (s, t) :: (Registry.process tS wk (removeKey k m) rest conn).attempts }) ∧
    (∀ st : ChanState K T S,
      (Channel.sendTo st k t).2 = if st.engineAlive then .ok () else .error .mk) := by
  refine ⟨fun hm => ?_, fun s hm hok => ?_, fun s e hm herr => ?_, fun st => ?_⟩
  · simp [Registry.process, hm]
  · simp [Registry.process, hm, hok]
  · refine ⟨by cases hke : e.kind; rfl, ?_⟩
    cases hke : e.kind with
    | Closed => simp [Registry.process, hm, herr, hke]
  · cases hal : st.engineAlive <;> simp [Channel.sendTo, Channel.send, hal]

/-- Witness for C2 at a concrete input: key `1` maps to sender `0`, which
reports `Closed`; the entry is removed, one attempt is recorded, and the
failure does not change the `Poll` outcome. -/
theorem C2_deliver_error_handling_witness :
    SendError.kind { kind := .Closed, message := (5 : Nat) } = .Closed ∧
    Registry.process natTrySend (0 : Nat) [((1 : Nat), (0 : Nat))] [.Msg 1 (5 : Nat)] true =
      { Registry.process natTrySend 0 (removeKey 1 [(1, 0)]) [] true with
        attempts := (0, 5) ::
          (Registry.process natTrySend 0 (removeKey 1 [(1, 0)]) [] true).attempts } :=
  (C2_deliver_error_handling natTrySend 0 [(1, 0)] 1 5 [] true).2.2.1 0
    { kind := .Closed, message := 5 } (by decide) rfl

/-- Counterexample to claim C3 as stated: its second ordering consequence
says that a `Deliver` dequeued after a `Subscribe(k, s)` is handed to `s`,
with no proviso about intervening messages.  In the sequence
`Subscribe(1, 7); Unsubscribe(1); Deliver(1, 5)` the deliver is dequeued
after `Subscribe(1, 7)` yet sender `7` receives no attempt at all. -/
theorem C3_counterexample :
    ((7 : Nat), (5 : Nat)) ∉
      (Registry.process natTrySend (0 : Nat) ([] : List (Nat × Nat))
        [.Subscribe 1 7, .Unsubscribe 1, .Msg 1 5] true).attempts := by
  decide

/-- Claim C3 (amended): control messages are applied strictly in dequeue
order: `Subscribe` inserts or overwrites (replacing, not merging),
`Unsubscribe` removes if present and is a no-op on an absent key; a `Deliver`
dequeued after an `Unsubscribe(k)` with no intervening `Subscribe(k)` reaches
no destination (it is a complete no-op), and a `Deliver` dequeued after a
`Subscribe(k, s)` **with no intervening control message for key `k`** is
handed to `s`. -/
theorem C3_fifo_order [DecidableEq K] (tS : S → T → Except (SendError T) Unit)
    (wk : W) (conn : Bool) :
    (∀ (m : List (K × S)) (k : K) (s : S) (rest : List (Message K T S)),
      Registry.process tS wk m (.Subscribe k s :: rest) conn =
        Registry.process tS wk (insertKey k s m) rest conn) ∧
    (∀ (m : List (K × S)) (k : K) (s : S), lookupKey k (insertKey k s m) = some s) ∧
    (∀ (m : List (K × S)) (k k' : K) (s : S), k' ≠ k →
      lookupKey k' (insertKey k s m) = lookupKey k' m) ∧
    (∀ (m : List (K × S)) (k : K) (rest : List (Message K T S)),
      Registry.process tS wk m (.Unsubscribe k :: rest) conn =
        Registry.process tS wk (removeKey k m) rest conn) ∧
    (∀ (m : List (K × S)) (k : K), lookupKey k (removeKey k m) = none) ∧
    (∀ (m : List (K × S)) (k : K), lookupKey k m = none → removeKey k m = m) ∧
    (∀ (m : List (K × S)) (k : K) (t : T) (q2 q3 : List (Message K T S)),
      (∀ s, Message.Subscribe k s ∉ q2) →
      Registry.process tS wk m (.Unsubscribe k :: (q2 ++ .Msg k t :: q3)) conn =
        Registry.process tS wk m (.Unsubscribe k :: (q2 ++ q3)) conn) ∧
    (∀ (m : List (K × S)) (k : K) (s : S) (t : T) (q2 q3 : List (Message K T S)),
      (∀ msg ∈ q2, Message.mentionsKey k msg = false) →
      (s, t) ∈ (Registry.process tS wk m (.Subscribe k s :: (q2 ++ .Msg k t :: q3))
        conn).attempts) := by
  refine ⟨fun m k s rest => by simp [Registry.process],
    fun m k s => lookupKey_insertKey_self k s m,
    fun m k k' s h => lookupKey_insertKey_ne k k' s m h,
    fun m k rest => by simp [Registry.process],
    fun m k => lookupKey_removeKey_self k m,
    fun m k h => removeKey_of_lookup_none k m h,
    fun m k t q2 q3 hq => ?_, fun m k s t q2 q3 hq => ?_⟩
  · show Registry.process tS wk (removeKey k m) (q2 ++ .Msg k t :: q3) conn =
      Registry.process tS wk (removeKey k m) (q2 ++ q3) conn
    exact process_skip_deliver tS wk conn k t q2 q3 (removeKey k m)
      (lookupKey_removeKey_self k m) hq
  · show (s, t) ∈ (Registry.process tS wk (insertKey k s m)
      (q2 ++ .Msg k t :: q3) conn).attempts
    exact process_deliver_mem tS wk conn k s t q2 q3 (insertKey k s m)
      (lookupKey_insertKey_self k s m) hq

/-- Witness for the amended C3 at a concrete input: with an intervening
message for a different key, the deliver is still handed to the subscribed
sender. -/
theorem C3_fifo_order_witness :
    ((7 : Nat), (5 : Nat)) ∈
      (Registry.process natTrySend (0 : Nat) ([] : List (Nat × Nat))
        [.Subscribe 1 7, .Subscribe 2 9, .Msg 1 5] true).attempts :=
  (C3_fifo_order natTrySend 0 true).2.2.2.2.2.2.2 [] 1 7 5 [.Subscribe 2 9] []
    (by decide)

/-- Claim C4: each handle operation (`subscribe`, `unsubscribe`, `send_to`)
enqueues its control message and then fires `wake()` on the shared wake cell,
returning `Ok(())`, exactly when the engine's receiver endpoint still exists;
when the engine side has been torn down it returns `Err(Cancelled)` and
nothing is enqueued; and `Cancelled` is the only error any handle operation
can produce. -/
theorem C4_handle_ops (st : ChanState K T S) (k : K) (s : S) (t : T) :
    (st.engineAlive = true →
      Channel.subscribe st k s =
        ({ st with queue := st.queue ++ [.Subscribe k s], wakes := st.wakes + 1 }, .ok ()) ∧
      Channel.unsubscribe st k =
        ({ st with queue := st.queue ++ [.Unsubscribe k], wakes := st.wakes + 1 }, .ok ()) ∧
      Channel.sendTo st k t =
        ({ st with queue := st.queue ++ [.Msg k t], wakes := st.wakes + 1 }, .ok ())) ∧
    (st.engineAlive = false →
      Channel.subscribe st k s = (st, .error .mk) ∧
      Channel.unsubscribe st k = (st, .error .mk) ∧
      Channel.sendTo st k t = (st, .error .mk)) ∧
    (∀ (msg : Message K T S) (e : Cancelled),
      (Channel.send st msg).2 = .error e → e = .mk) := by
  refine ⟨fun hal => ?_, fun hal => ?_, fun msg e _ => by cases e; rfl⟩
  · exact ⟨by simp [Channel.subscribe, Channel.send, hal],
      by simp [Channel.unsubscribe, Channel.send, hal],
      by simp [Channel.sendTo, Channel.send, hal]⟩
  · exact ⟨by simp [Channel.subscribe, Channel.send, hal],
      by simp [Channel.unsubscribe, Channel.send, hal],
      by simp [Channel.sendTo, Channel.send, hal]⟩

/-- Witness for C4 at a concrete input: with the engine alive, `send_to`
appends its message and fires one wake; with it gone, `subscribe` reports
`Cancelled`. -/
theorem C4_handle_ops_witness :
    Channel.sendTo (ChanState.mk ([] : List (Message Nat Nat Nat)) true 0) 1 5 =
      (ChanState.mk [.Msg 1 5] true 1, .ok ()) ∧
    Channel.subscribe (ChanState.mk ([] : List (Message Nat Nat Nat)) false 0) 1 7 =
      (ChanState.mk [] false 0, .error .mk) :=
  ⟨((C4_handle_ops (ChanState.mk [] true 0) 1 7 5).1 rfl).2.2,
    ((C4_handle_ops (ChanState.mk [] false 0) 1 7 5).2.1 rfl).1⟩

/-- Claim C5: one engine step (`Registry::process`) drains the whole queue —
each dequeued message is applied and draining continues — and then returns
`Pending`, having registered the caller's waiter, exactly when a producer
endpoint remains, and returns the terminal `Ready(Cancelled)` exactly when
the transport reports permanent disconnection. -/
theorem C5_step_outcomes [DecidableEq K] (tS : S → T → Except (SendError T) Unit)
    (wk : W) (m : List (K × S)) (q : List (Message K T S)) (conn : Bool) :
    ((Registry.process tS wk m q conn).result = .Pending ↔ conn = true) ∧
    ((Registry.process tS wk m q conn).result = .Ready .mk ↔ conn = false) ∧
    ((Registry.process tS wk m q conn).result = .Pending →
      (Registry.process tS wk m q conn).registered = some wk) ∧
    (Registry.process tS wk m [] true =
      { registry := m, attempts := [], result := .Pending, registered := some wk }) ∧
    (Registry.process tS wk m [] false =
      { registry := m, attempts := [], result := .Ready .mk, registered := none }) ∧
    (∀ (msg : Message K T S) (rest : List (Message K T S)),
      Registry.process tS wk m (msg :: rest) conn =
        { Registry.process tS wk (applyMessage tS m msg).1 rest conn with
          attempts := (applyMessage tS m msg).2 ++
            (Registry.process tS wk (applyMessage tS m msg).1 rest conn).attempts }) := by
  refine ⟨?_, ?_, ?_, by simp [Registry.process], by simp [Registry.process],
    fun msg rest => process_cons tS wk m msg rest conn⟩
  · rw [process_result_eq]; cases conn <;> simp
  · rw [process_result_eq]; cases conn <;> simp
  · rw [process_result_eq, process_registered]; cases conn <;> simp

/-- Witness for C5 at a concrete input: a still-connected engine with an empty
queue reports `Pending` after registering the caller's waker. -/
theorem C5_step_outcomes_witness :
    (Registry.process natTrySend (4 : Nat) ([] : List (Nat × Nat))
      ([] : List (Message Nat Nat Nat)) true).registered = some 4 :=
  (C5_step_outcomes natTrySend 4 [] [] true).2.2.1 (by decide)

/-- Claim C9: the blocking driver's step (`Registry::run`'s loop body) and the
cooperative driver's step (`<Registry as Future>::poll`) each invoke the very
same `Registry::process`, and for equal internal state and queue they produce
the same mapping, the same delivery attempts, and the same
`Pending`/`Ready(Cancelled)` outcome; only the waiter registered with the wake
cell differs, and one registers its waiter exactly when the other does. -/
theorem C9_driver_equivalence [DecidableEq K] (tS : S → T → Except (SendError T) Unit)
    (w₁ w₂ : W) (m : List (K × S)) (q : List (Message K T S)) (conn : Bool) :
    Registry.runStep tS w₁ m q conn = Registry.process tS w₁ m q conn ∧
    Registry.pollStep tS w₂ m q conn = Registry.process tS w₂ m q conn ∧
    (Registry.runStep tS w₁ m q conn).registry = (Registry.pollStep tS w₂ m q conn).registry ∧
    (Registry.runStep tS w₁ m q conn).attempts = (Registry.pollStep tS w₂ m q conn).attempts ∧
    (Registry.runStep tS w₁ m q conn).result = (Registry.pollStep tS w₂ m q conn).result ∧
    ((Registry.runStep tS w₁ m q conn).registered = some w₁ ↔
      (Registry.pollStep tS w₂ m q conn).registered = some w₂) := by
  rcases process_registry_waker_irrel tS w₁ w₂ m q conn with ⟨h1, h2, h3⟩
  refine ⟨rfl, rfl, h1, h2, h3, ?_⟩
  show (Registry.process tS w₁ m q conn).registered = some w₁ ↔
    (Registry.process tS w₂ m q conn).registered = some w₂
  rw [process_registered, process_registered]
  cases conn <;> simp

/-!
Invariant machinery for the `AtomicWaker` transition system.
-/

theorem regHolder_cases {t : Thread} (h : t.regHolder = true) :
    t.inRegCrit = true ∨ t.inRegFail = true := by
  cases t with
  | reg pc =>
    cases pc <;> simp [Thread.regHolder, Thread.inRegCrit, Thread.inRegFail] at h ⊢
  | wak pc => cases pc <;> simp [Thread.regHolder] at h

theorem inRegCrit_regHolder {t : Thread} (h : t.inRegCrit = true) : t.regHolder = true := by
  cases t with
  | reg pc => cases pc <;> simp [Thread.regHolder, Thread.inRegCrit] at h ⊢
  | wak pc => cases pc <;> simp [Thread.inRegCrit] at h

theorem inRegFail_regHolder {t : Thread} (h : t.inRegFail = true) : t.regHolder = true := by
  cases t with
  | reg pc => cases pc <;> simp [Thread.regHolder, Thread.inRegFail] at h ⊢
  | wak pc => cases pc <;> simp [Thread.inRegFail] at h

theorem invAt_waiting {st : Nat} {l : List Thread} (h : InvAt st l) (h0 : st = WAITING) :
    l.countP Thread.regHolder = 0 ∧ l.countP Thread.wakHolder = 0 := by
  rcases h with ⟨h1, h2, _⟩ | ⟨h1, _, h3⟩ | ⟨_, _, h3⟩
  · exact ⟨h1, h2⟩
  · exfalso
    obtain ⟨u, hu, hpu⟩ := List.countP_pos_iff.mp
      (show 0 < l.countP Thread.regHolder by omega)
    rcases regHolder_cases hpu with hc | hf
    · rcases (h3 u hu).1 hc with h' | h' <;>
        (rw [h0] at h'; simp [WAITING, REGISTERING] at h')
    · rw [h0] at h3
      have := (h3 u hu).2 hf
      simp [WAITING] at this
  · exfalso; rw [h0] at h3; simp [WAITING, WAKING] at h3

theorem invAt_reg_member {st : Nat} {l : List Thread} (h : InvAt st l) {i : Nat} {t : Thread}
    (hget : l.get? i = some t) (hreg : t.regHolder = true) :
    l.countP Thread.regHolder = 1 ∧ l.countP Thread.wakHolder = 0 ∧
    (∀ u ∈ l, (u.inRegCrit = true → st = REGISTERING ∨ st = 3) ∧
      (u.inRegFail = true → st = 3)) := by
  have hpos : 0 < l.countP Thread.regHolder :=
    List.countP_pos_iff.mpr ⟨t, List.get?_mem hget, hreg⟩
  rcases h with ⟨h1, _, _⟩ | hB | ⟨h1, _, _⟩
  · omega
  · exact hB
  · omega

theorem invAt_wak_member {st : Nat} {l : List Thread} (h : InvAt st l) {i : Nat} {t : Thread}
    (hget : l.get? i = some t) (hwak : t.wakHolder = true) :
    l.countP Thread.regHolder = 0 ∧ l.countP Thread.wakHolder = 1 ∧ st = WAKING := by
  have hpos : 0 < l.countP Thread.wakHolder :=
    List.countP_pos_iff.mpr ⟨t, List.get?_mem hget, hwak⟩
  rcases h with ⟨_, h2, _⟩ | ⟨_, h2, _⟩ | hC
  · omega
  · omega
  · exact hC

theorem invAt_neutral {st : Nat} {l : List Thread} (h : InvAt st l) {i : Nat}
    (hlen : i < l.length) {a : Thread}
    (haR : a.regHolder = false) (haW : a.wakHolder = false)
    (haC : a.inRegCrit = false) (haF : a.inRegFail = false)
    (htR : (l[i]).regHolder = false) (htW : (l[i]).wakHolder = false) :
    InvAt st (l.set i a) := by
  have hR := List.countP_set Thread.regHolder l i a hlen
  have hW := List.countP_set Thread.wakHolder l i a hlen
  rw [htR, haR] at hR
  rw [htW, haW] at hW
  simp only [if_neg Bool.false_ne_true, Nat.sub_zero, Nat.add_zero] at hR hW
  rcases h with ⟨h1, h2, h3⟩ | ⟨h1, h2, h3⟩ | ⟨h1, h2, h3⟩
  · exact Or.inl ⟨by omega, by omega, h3⟩
  · refine Or.inr (Or.inl ⟨by omega, by omega, ?_⟩)
    intro u hmem
    rcases List.mem_or_eq_of_mem_set hmem with hmem' | rfl
    · exact h3 u hmem'
    · exact ⟨fun hc => by rw [haC] at hc; exact absurd hc (by simp),
        fun hf => by rw [haF] at hf; exact absurd hf (by simp)⟩
  · exact Or.inr (Or.inr ⟨by omega, by omega, h3⟩)

theorem countP_set_val (p : Thread → Bool) {l : List Thread} {i : Nat} {t : Thread}
    (hlen : i < l.length) (hti : l[i] = t) (a : Thread) (vt va : Nat)
    (hvt : (if p t then 1 else 0) = vt) (hva : (if p a then 1 else 0) = va) :
    (l.set i a).countP p = l.countP p - vt + va := by
  rw [List.countP_set p l i a hlen, hti, hvt, hva]

theorem inv_step {c c' : Config} (hinv : Inv c) (hs : Step c c') : Inv c' := by
  obtain ⟨i, t, hget, hndone, rfl⟩ := hs
  obtain ⟨hlen, hgel⟩ := List.get?_eq_some.mp hget
  have hti : c.threads[i] = t := by simpa [List.get_eq_getElem] using hgel
  have hget' : c.threads[i]? = some t := by
    rw [← List.get?_eq_getElem?]; exact hget
  have happ_t : (applyStep c i).threads =
      c.threads.set i (threadStep t c.status c.slot).thread := by
    simp [applyStep, hget']
  have happ_s : (applyStep c i).status = (threadStep t c.status c.slot).status := by
    simp [applyStep, hget']
  unfold Inv at hinv ⊢
  rw [happ_t, happ_s]
  cases t with
  | reg pc =>
    cases pc with
    | start w =>
      by_cases h0 : c.status = WAITING
      · -- entry compare-exchange succeeds: become the unique register holder
        obtain ⟨hr0, hw0⟩ := invAt_waiting hinv h0
        have hz := List.countP_eq_zero.mp hr0
        have ht1 : (threadStep (.reg (.start w)) c.status c.slot).thread =
            .reg (.locked w) := by simp [threadStep, h0]
        have ht2 : (threadStep (.reg (.start w)) c.status c.slot).status =
            REGISTERING := by simp [threadStep, h0]
        rw [ht1, ht2]
        refine Or.inr (Or.inl ⟨?_, ?_, ?_⟩)
        · rw [countP_set_val Thread.regHolder hlen hti (.reg (.locked w)) 0 1 rfl rfl]
          omega
        · rw [countP_set_val Thread.wakHolder hlen hti (.reg (.locked w)) 0 0 rfl rfl]
          omega
        · intro u hmem
          rcases List.mem_or_eq_of_mem_set hmem with hm | rfl
          · exact ⟨fun hc => absurd (inRegCrit_regHolder hc) (hz u hm),
              fun hf => absurd (inRegFail_regHolder hf) (hz u hm)⟩
          · exact ⟨fun _ => Or.inl rfl, fun hf => by simp [Thread.inRegFail] at hf⟩
      · -- entry compare-exchange fails: no state change, the call ends
        have ht1 : (threadStep (.reg (.start w)) c.status c.slot).thread = .reg .done := by
          simp only [threadStep]
          by_cases h2 : c.status = WAKING
          · rw [if_neg h0, if_pos h2]
          · rw [if_neg h0, if_neg h2]
        have ht2 : (threadStep (.reg (.start w)) c.status c.slot).status = c.status := by
          simp only [threadStep]
          by_cases h2 : c.status = WAKING
          · rw [if_neg h0, if_pos h2]
          · rw [if_neg h0, if_neg h2]
        rw [ht1, ht2]
        exact invAt_neutral hinv hlen rfl rfl rfl rfl (by rw [hti]; exact rfl)
          (by rw [hti]; exact rfl)
    | locked w =>
      obtain ⟨hr1, hw1, hall⟩ := invAt_reg_member hinv hget rfl
      have hstat := (hall _ (List.get?_mem hget)).1 rfl
      have ht1 : (threadStep (.reg (.locked w)) c.status c.slot).thread = .reg .mutated := by
        by_cases hw : c.slot.willWake w <;> simp [threadStep, hw]
      have ht2 : (threadStep (.reg (.locked w)) c.status c.slot).status = c.status := by
        by_cases hw : c.slot.willWake w <;> simp [threadStep, hw]
      rw [ht1, ht2]
      refine Or.inr (Or.inl ⟨?_, ?_, ?_⟩)
      · rw [countP_set_val Thread.regHolder hlen hti (.reg .mutated) 1 1 rfl rfl]
        omega
      · rw [countP_set_val Thread.wakHolder hlen hti (.reg .mutated) 0 0 rfl rfl]
        omega
      · intro u hmem
        rcases List.mem_or_eq_of_mem_set hmem with hm | rfl
        · exact hall u hm
        · exact ⟨fun _ => hstat, fun hf => by simp [Thread.inRegFail] at hf⟩
    | mutated =>
      obtain ⟨hr1, hw1, hall⟩ := invAt_reg_member hinv hget rfl
      have hstat := (hall _ (List.get?_mem hget)).1 rfl
      by_cases hcas : c.status = REGISTERING
      · -- exit compare-exchange succeeds: back to the idle state
        have ht1 : (threadStep (.reg .mutated) c.status c.slot).thread = .reg .done := by
          simp [threadStep, hcas]
        have ht2 : (threadStep (.reg .mutated) c.status c.slot).status = WAITING := by
          simp [threadStep, hcas]
        rw [ht1, ht2]
        refine Or.inl ⟨?_, ?_, rfl⟩
        · rw [countP_set_val Thread.regHolder hlen hti (.reg .done) 1 0 rfl rfl]
          omega
        · rw [countP_set_val Thread.wakHolder hlen hti (.reg .done) 0 0 rfl rfl]
          omega
      · -- exit compare-exchange fails: the only possible status is 3
        have hst3 : c.status = 3 := by
          rcases hstat with h | h
          · exact absurd h hcas
          · exact h
        have ht1 : (threadStep (.reg .mutated) c.status c.slot).thread = .reg .casFailed := by
          simp [threadStep, hcas]
        have ht2 : (threadStep (.reg .mutated) c.status c.slot).status = c.status := by
          simp [threadStep, hcas]
        rw [ht1, ht2]
        refine Or.inr (Or.inl ⟨?_, ?_, ?_⟩)
        · rw [countP_set_val Thread.regHolder hlen hti (.reg .casFailed) 1 1 rfl rfl]
          omega
        · rw [countP_set_val Thread.wakHolder hlen hti (.reg .casFailed) 0 0 rfl rfl]
          omega
        · intro u hmem
          rcases List.mem_or_eq_of_mem_set hmem with hm | rfl
          · exact hall u hm
          · exact ⟨fun hc => by simp [Thread.inRegCrit] at hc, fun _ => hst3⟩
    | casFailed =>
      obtain ⟨hr1, hw1, hall⟩ := invAt_reg_member hinv hget rfl
      have hst3 := (hall _ (List.get?_mem hget)).2 rfl
      have ht1 : (threadStep (.reg .casFailed) c.status c.slot).thread =
          .reg (.failSwapped c.slot) := by simp [threadStep]
      have ht2 : (threadStep (.reg .casFailed) c.status c.slot).status = c.status := by
        simp [threadStep]
      rw [ht1, ht2]
      refine Or.inr (Or.inl ⟨?_, ?_, ?_⟩)
      · rw [countP_set_val Thread.regHolder hlen hti (.reg (.failSwapped c.slot)) 1 1 rfl rfl]
        omega
      · rw [countP_set_val Thread.wakHolder hlen hti (.reg (.failSwapped c.slot)) 0 0 rfl rfl]
        omega
      · intro u hmem
        rcases List.mem_or_eq_of_mem_set hmem with hm | rfl
        · exact hall u hm
        · exact ⟨fun hc => by simp [Thread.inRegCrit] at hc, fun _ => hst3⟩
    | failSwapped s =>
      obtain ⟨hr1, hw1, hall⟩ := invAt_reg_member hinv hget rfl
      have ht1 : (threadStep (.reg (.failSwapped s)) c.status c.slot).thread =
          .reg (.failStored s) := by simp [threadStep]
      have ht2 : (threadStep (.reg (.failSwapped s)) c.status c.slot).status = WAITING := by
        simp [threadStep]
      rw [ht1, ht2]
      refine Or.inl ⟨?_, ?_, rfl⟩
      · rw [countP_set_val Thread.regHolder hlen hti (.reg (.failStored s)) 1 0 rfl rfl]
        omega
      · rw [countP_set_val Thread.wakHolder hlen hti (.reg (.failStored s)) 0 0 rfl rfl]
        omega
    | failStored s =>
      have ht1 : (threadStep (.reg (.failStored s)) c.status c.slot).thread = .reg .done := by
        simp [threadStep]
      have ht2 : (threadStep (.reg (.failStored s)) c.status c.slot).status = c.status := by
        simp [threadStep]
      rw [ht1, ht2]
      exact invAt_neutral hinv hlen rfl rfl rfl rfl (by rw [hti]; exact rfl)
        (by rw [hti]; exact rfl)
    | done => simp [Thread.isDone] at hndone
  | wak pc =>
    cases pc with
    | start =>
      by_cases h0 : c.status = WAITING
      · -- `fetch_or` observed the idle state: acquire the waking lock
        obtain ⟨hr0, hw0⟩ := invAt_waiting hinv h0
        have ht1 : (threadStep (.wak .start) c.status c.slot).thread = .wak .acquired := by
          simp [threadStep, h0]
        have ht2 : (threadStep (.wak .start) c.status c.slot).status = WAKING := by
          simp [threadStep, h0, WAITING, WAKING]
        rw [ht1, ht2]
        refine Or.inr (Or.inr ⟨?_, ?_, rfl⟩)
        · rw [countP_set_val Thread.regHolder hlen hti (.wak .acquired) 0 0 rfl rfl]
          omega
        · rw [countP_set_val Thread.wakHolder hlen hti (.wak .acquired) 0 1 rfl rfl]
          omega
      · -- `fetch_or` observed a non-idle state: only set the WAKING bit
        have ht1 : (threadStep (.wak .start) c.status c.slot).thread = .wak .done := by
          simp [threadStep, h0]
        have ht2 : (threadStep (.wak .start) c.status c.slot).status =
            c.status ||| WAKING := by simp [threadStep, h0]
        rcases hinv with ⟨h1, h2, h3⟩ | ⟨h1, h2, h3⟩ | ⟨h1, h2, h3⟩
        · exact absurd h3 h0
        · obtain ⟨u, hu, hpu⟩ := List.countP_pos_iff.mp
            (show 0 < c.threads.countP Thread.regHolder by omega)
          have hst : c.status = REGISTERING ∨ c.status = 3 := by
            rcases regHolder_cases hpu with hc | hf
            · exact (h3 u hu).1 hc
            · exact Or.inr ((h3 u hu).2 hf)
          have hsv : c.status ||| WAKING = 3 := by
            rcases hst with h | h <;> rw [h] <;> decide
          rw [ht1, ht2, hsv]
          refine Or.inr (Or.inl ⟨?_, ?_, ?_⟩)
          · rw [countP_set_val Thread.regHolder hlen hti (.wak .done) 0 0 rfl rfl]
            omega
          · rw [countP_set_val Thread.wakHolder hlen hti (.wak .done) 0 0 rfl rfl]
            omega
          · intro u' hmem
            rcases List.mem_or_eq_of_mem_set hmem with hm | rfl
            · exact ⟨fun _ => Or.inr rfl, fun _ => rfl⟩
            · exact ⟨fun hc => by simp [Thread.inRegCrit] at hc,
                fun hf => by simp [Thread.inRegFail] at hf⟩
        · have hsv : c.status ||| WAKING = WAKING := by rw [h3]; decide
          rw [ht1, ht2, hsv]
          refine Or.inr (Or.inr ⟨?_, ?_, rfl⟩)
          · rw [countP_set_val Thread.regHolder hlen hti (.wak .done) 0 0 rfl rfl]
            omega
          · rw [countP_set_val Thread.wakHolder hlen hti (.wak .done) 0 0 rfl rfl]
            omega
    | acquired =>
      obtain ⟨hr0, hw1, hst⟩ := invAt_wak_member hinv hget rfl
      have ht1 : (threadStep (.wak .acquired) c.status c.slot).thread =
          .wak (.swapped c.slot) := by simp [threadStep]
      have ht2 : (threadStep (.wak .acquired) c.status c.slot).status = c.status := by
        simp [threadStep]
      rw [ht1, ht2]
      refine Or.inr (Or.inr ⟨?_, ?_, hst⟩)
      · rw [countP_set_val Thread.regHolder hlen hti (.wak (.swapped c.slot)) 0 0 rfl rfl]
        omega
      · rw [countP_set_val Thread.wakHolder hlen hti (.wak (.swapped c.slot)) 1 1 rfl rfl]
        omega
    | swapped s =>
      obtain ⟨hr0, hw1, hst⟩ := invAt_wak_member hinv hget rfl
      have ht1 : (threadStep (.wak (.swapped s)) c.status c.slot).thread =
          .wak (.cleared s) := by simp [threadStep]
      have ht2 : (threadStep (.wak (.swapped s)) c.status c.slot).status = WAITING := by
        simp only [threadStep]
        rw [hst]; decide
      rw [ht1, ht2]
      refine Or.inl ⟨?_, ?_, rfl⟩
      · rw [countP_set_val Thread.regHolder hlen hti (.wak (.cleared s)) 0 0 rfl rfl]
        omega
      · rw [countP_set_val Thread.wakHolder hlen hti (.wak (.cleared s)) 1 0 rfl rfl]
        omega
    | cleared s =>
      have ht1 : (threadStep (.wak (.cleared s)) c.status c.slot).thread = .wak .done := by
        simp [threadStep]
      have ht2 : (threadStep (.wak (.cleared s)) c.status c.slot).status = c.status := by
        simp [threadStep]
      rw [ht1, ht2]
      exact invAt_neutral hinv hlen rfl rfl rfl rfl (by rw [hti]; exact rfl)
        (by rw [hti]; exact rfl)
    | done => simp [Thread.isDone] at hndone

theorem inv_init (ts : List Thread) (hinit : ∀ t ∈ ts, t.isInitial = true) :
    Inv (initConfig ts) := by
  unfold Inv initConfig InvAt
  refine Or.inl ⟨?_, ?_, rfl⟩
  · refine List.countP_eq_zero.mpr fun t hmem => ?_
    have := hinit t hmem
    cases t with
    | reg pc => cases pc <;> simp [Thread.isInitial] at this ⊢ <;> simp [Thread.regHolder]
    | wak pc => cases pc <;> simp [Thread.isInitial] at this ⊢ <;> simp [Thread.regHolder]
  · refine List.countP_eq_zero.mpr fun t hmem => ?_
    have := hinit t hmem
    cases t with
    | reg pc => cases pc <;> simp [Thread.isInitial] at this ⊢ <;> simp [Thread.wakHolder]
    | wak pc => cases pc <;> simp [Thread.isInitial] at this ⊢ <;> simp [Thread.wakHolder]

theorem inv_reachable {ts : List Thread} {c : Config}
    (hinit : ∀ t ∈ ts, t.isInitial = true) (hr : Reachable ts c) : Inv c := by
  induction hr with
  | refl => exact inv_init ts hinit
  | tail _ hstep ih => exact inv_step ih hstep

/-!
Preservation of the fire budget invariant.
-/

theorem budgetAt_set_same {sf st : List Waker} {sl : Waker} {l : List Thread}
    (hb : BudgetAt sf l sl st) {i : Nat} (hlen : i < l.length) {t : Thread}
    (hti : l[i] = t) (a : Thread)
    (heq : ∀ w : Waker, Thread.holdsSaved w a = Thread.holdsSaved w t) :
    BudgetAt sf (l.set i a) sl st := by
  intro w hw
  have hcnt := List.countP_set (Thread.holdsSaved w) l i a hlen
  have hle := List.boole_getElem_le_countP (Thread.holdsSaved w) l i hlen
  rw [hti] at hcnt hle
  rw [heq w] at hcnt
  have := hb w hw
  omega

theorem budgetAt_store {sf st : List Waker} {sl : Waker} {l : List Thread}
    (hb : BudgetAt sf l sl st) {i : Nat} (hlen : i < l.length) {t : Thread}
    (hti : l[i] = t) (a : Thread)
    (heq : ∀ w : Waker, Thread.holdsSaved w a = Thread.holdsSaved w t) (wv : Waker) :
    BudgetAt sf (l.set i a) wv (wv :: st) := by
  intro w hw
  have base := budgetAt_set_same hb hlen hti a heq w hw
  rw [List.count_cons]
  by_cases hww : wv = w
  · have hbeq : (wv == w) = true := by simp [hww]
    rw [hbeq, hww]
    simp only [if_pos rfl]
    omega
  · have hbeq : (wv == w) = false := by simp [hww]
    rw [hbeq, if_neg hww]
    simp only [Bool.false_eq_true, if_false]
    omega

theorem budgetAt_swap_out {sf st : List Waker} {sl : Waker} {l : List Thread}
    (hb : BudgetAt sf l sl st) {i : Nat} (hlen : i < l.length) {t : Thread}
    (hti : l[i] = t) (ht : ∀ w : Waker, Thread.holdsSaved w t = false) (a : Thread)
    (ha : ∀ w : Waker, Thread.holdsSaved w a = (sl == w)) :
    BudgetAt sf (l.set i a) none st := by
  intro w hw
  have hbw := hb w hw
  have hcnt := List.countP_set (Thread.holdsSaved w) l i a hlen
  rw [hti, ht w, ha w] at hcnt
  have hz : (if (none : Waker) = w then 1 else 0) = 0 := if_neg (Ne.symm hw)
  rw [hz]
  by_cases hsw : sl = w
  · have hbeq : (sl == w) = true := by simp [hsw]
    rw [hbeq] at hcnt
    rw [hsw] at hbw
    simp only [if_pos rfl] at hbw
    simp only [Bool.false_eq_true, if_false, if_pos rfl] at hcnt
    omega
  · have hbeq : (sl == w) = false := by simp [hsw]
    rw [hbeq] at hcnt
    rw [if_neg hsw] at hbw
    simp only [Bool.false_eq_true, if_false] at hcnt
    omega

theorem budgetAt_fire {sf st : List Waker} {sl s : Waker} {l : List Thread}
    (hb : BudgetAt sf l sl st) {i : Nat} (hlen : i < l.length) {t : Thread}
    (hti : l[i] = t) (ht : ∀ w : Waker, Thread.holdsSaved w t = (s == w)) (a : Thread)
    (ha : ∀ w : Waker, Thread.holdsSaved w a = false) :
    BudgetAt (s :: sf) (l.set i a) sl st := by
  intro w hw
  have hbw := hb w hw
  have hcnt := List.countP_set (Thread.holdsSaved w) l i a hlen
  have hle := List.boole_getElem_le_countP (Thread.holdsSaved w) l i hlen
  rw [hti, ht w, ha w] at hcnt
  rw [hti, ht w] at hle
  rw [List.count_cons]
  by_cases hsw : s = w
  · have hbeq : (s == w) = true := by simp [hsw]
    rw [hbeq] at hcnt hle
    rw [hbeq]
    simp only [if_pos rfl, Bool.false_eq_true, if_false] at hcnt hle ⊢
    omega
  · have hbeq : (s == w) = false := by simp [hsw]
    rw [hbeq] at hcnt hle
    rw [hbeq]
    simp only [Bool.false_eq_true, if_false] at hcnt hle ⊢
    omega

theorem budget_step {c c' : Config} (hb : FireBudget c) (hs : Step c c') : FireBudget c' := by
  obtain ⟨i, t, hget, hndone, rfl⟩ := hs
  obtain ⟨hlen, hgel⟩ := List.get?_eq_some.mp hget
  have hti : c.threads[i] = t := by simpa [List.get_eq_getElem] using hgel
  have hget' : c.threads[i]? = some t := by
    rw [← List.get?_eq_getElem?]; exact hget
  unfold FireBudget
  cases t with
  | reg pc =>
    cases pc with
    | start w =>
      by_cases h0 : c.status = WAITING
      · have hth : (applyStep c i).threads = c.threads.set i (.reg (.locked w)) := by
          simp [applyStep, hget', threadStep, h0]
        have hsl : (applyStep c i).slot = c.slot := by
          simp [applyStep, hget', threadStep, h0]
        have hsf : (applyStep c i).slotFired = c.slotFired := by
          simp [applyStep, hget', threadStep, h0]
        have hsts : (applyStep c i).stores = c.stores := by
          simp [applyStep, hget', threadStep, h0]
        rw [hth, hsl, hsf, hsts]
        exact budgetAt_set_same hb hlen hti (.reg (.locked w)) (fun w' => rfl)
      · by_cases h2 : c.status = WAKING
        · have hts : threadStep (.reg (.start w)) c.status c.slot =
              ⟨.reg .done, c.status, c.slot, some w, false, none⟩ := by
            simp only [threadStep]; rw [if_neg h0, if_pos h2]
          have hth : (applyStep c i).threads = c.threads.set i (.reg .done) := by
            simp [applyStep, hget', hts]
          have hsl : (applyStep c i).slot = c.slot := by
            simp [applyStep, hget', hts]
          have hsf : (applyStep c i).slotFired = c.slotFired := by
            simp [applyStep, hget', hts]
          have hsts : (applyStep c i).stores = c.stores := by
            simp [applyStep, hget', hts]
          rw [hth, hsl, hsf, hsts]
          exact budgetAt_set_same hb hlen hti (.reg .done) (fun w' => rfl)
        · have hts : threadStep (.reg (.start w)) c.status c.slot =
              ⟨.reg .done, c.status, c.slot, none, false, none⟩ := by
            simp only [threadStep]; rw [if_neg h0, if_neg h2]
          have hth : (applyStep c i).threads = c.threads.set i (.reg .done) := by
            simp [applyStep, hget', hts]
          have hsl : (applyStep c i).slot = c.slot := by
            simp [applyStep, hget', hts]
          have hsf : (applyStep c i).slotFired = c.slotFired := by
            simp [applyStep, hget', hts]
          have hsts : (applyStep c i).stores = c.stores := by
            simp [applyStep, hget', hts]
          rw [hth, hsl, hsf, hsts]
          exact budgetAt_set_same hb hlen hti (.reg .done) (fun w' => rfl)
    | locked w =>
      by_cases hw : c.slot.willWake w
      · have hth : (applyStep c i).threads = c.threads.set i (.reg .mutated) := by
          simp [applyStep, hget', threadStep, hw]
        have hsl : (applyStep c i).slot = c.slot := by
          simp [applyStep, hget', threadStep, hw]
        have hsf : (applyStep c i).slotFired = c.slotFired := by
          simp [applyStep, hget', threadStep, hw]
        have hsts : (applyStep c i).stores = c.stores := by
          simp [applyStep, hget', threadStep, hw]
        rw [hth, hsl, hsf, hsts]
        exact budgetAt_set_same hb hlen hti (.reg .mutated) (fun w' => rfl)
      · have hth : (applyStep c i).threads = c.threads.set i (.reg .mutated) := by
          simp [applyStep, hget', threadStep, hw]
        have hsl : (applyStep c i).slot = w := by
          simp [applyStep, hget', threadStep, hw]
        have hsf : (applyStep c i).slotFired = c.slotFired := by
          simp [applyStep, hget', threadStep, hw]
        have hsts : (applyStep c i).stores = w :: c.stores := by
          simp [applyStep, hget', threadStep, hw]
        rw [hth, hsl, hsf, hsts]
        exact budgetAt_store hb hlen hti (.reg .mutated) (fun w' => rfl) w
    | mutated =>
      by_cases hcas : c.status = REGISTERING
      · have hth : (applyStep c i).threads = c.threads.set i (.reg .done) := by
          simp [applyStep, hget', threadStep, hcas]
        have hsl : (applyStep c i).slot = c.slot := by
          simp [applyStep, hget', threadStep, hcas]
        have hsf : (applyStep c i).slotFired = c.slotFired := by
          simp [applyStep, hget', threadStep, hcas]
        have hsts : (applyStep c i).stores = c.stores := by
          simp [applyStep, hget', threadStep, hcas]
        rw [hth, hsl, hsf, hsts]
        exact budgetAt_set_same hb hlen hti (.reg .done) (fun w' => rfl)
      · have hth : (applyStep c i).threads = c.threads.set i (.reg .casFailed) := by
          simp [applyStep, hget', threadStep, hcas]
        have hsl : (applyStep c i).slot = c.slot := by
          simp [applyStep, hget', threadStep, hcas]
        have hsf : (applyStep c i).slotFired = c.slotFired := by
          simp [applyStep, hget', threadStep, hcas]
        have hsts : (applyStep c i).stores = c.stores := by
          simp [applyStep, hget', threadStep, hcas]
        rw [hth, hsl, hsf, hsts]
        exact budgetAt_set_same hb hlen hti (.reg .casFailed) (fun w' => rfl)
    | casFailed =>
      have hth : (applyStep c i).threads = c.threads.set i (.reg (.failSwapped c.slot)) := by
        simp [applyStep, hget', threadStep]
      have hsl : (applyStep c i).slot = none := by
        simp [applyStep, hget', threadStep]
      have hsf : (applyStep c i).slotFired = c.slotFired := by
        simp [applyStep, hget', threadStep]
      have hsts : (applyStep c i).stores = c.stores := by
        simp [applyStep, hget', threadStep]
      rw [hth, hsl, hsf, hsts]
      exact budgetAt_swap_out hb hlen hti (fun w' => rfl) (.reg (.failSwapped c.slot)) (fun w' => rfl)
    | failSwapped s =>
      have hth : (applyStep c i).threads = c.threads.set i (.reg (.failStored s)) := by
        simp [applyStep, hget', threadStep]
      have hsl : (applyStep c i).slot = c.slot := by
        simp [applyStep, hget', threadStep]
      have hsf : (applyStep c i).slotFired = c.slotFired := by
        simp [applyStep, hget', threadStep]
      have hsts : (applyStep c i).stores = c.stores := by
        simp [applyStep, hget', threadStep]
      rw [hth, hsl, hsf, hsts]
      exact budgetAt_set_same hb hlen hti (.reg (.failStored s)) (fun w' => rfl)
    | failStored s =>
      have hth : (applyStep c i).threads = c.threads.set i (.reg .done) := by
        simp [applyStep, hget', threadStep]
      have hsl : (applyStep c i).slot = c.slot := by
        simp [applyStep, hget', threadStep]
      have hsf : (applyStep c i).slotFired = s :: c.slotFired := by
        simp [applyStep, hget', threadStep]
      have hsts : (applyStep c i).stores = c.stores := by
        simp [applyStep, hget', threadStep]
      rw [hth, hsl, hsf, hsts]
      exact budgetAt_fire hb hlen hti (fun w' => rfl) (.reg .done) (fun w' => rfl)
    | done => simp [Thread.isDone] at hndone
  | wak pc =>
    cases pc with
    | start =>
      by_cases h0 : c.status = WAITING
      · have hth : (applyStep c i).threads = c.threads.set i (.wak .acquired) := by
          simp [applyStep, hget', threadStep, h0]
        have hsl : (applyStep c i).slot = c.slot := by
          simp [applyStep, hget', threadStep, h0]
        have hsf : (applyStep c i).slotFired = c.slotFired := by
          simp [applyStep, hget', threadStep, h0]
        have hsts : (applyStep c i).stores = c.stores := by
          simp [applyStep, hget', threadStep, h0]
        rw [hth, hsl, hsf, hsts]
        exact budgetAt_set_same hb hlen hti (.wak .acquired) (fun w' => rfl)
      · have hth : (applyStep c i).threads = c.threads.set i (.wak .done) := by
          simp [applyStep, hget', threadStep, h0]
        have hsl : (applyStep c i).slot = c.slot := by
          simp [applyStep, hget', threadStep, h0]
        have hsf : (applyStep c i).slotFired = c.slotFired := by
          simp [applyStep, hget', threadStep, h0]
        have hsts : (applyStep c i).stores = c.stores := by
          simp [applyStep, hget', threadStep, h0]
        rw [hth, hsl, hsf, hsts]
        exact budgetAt_set_same hb hlen hti (.wak .done) (fun w' => rfl)
    | acquired =>
      have hth : (applyStep c i).threads = c.threads.set i (.wak (.swapped c.slot)) := by
        simp [applyStep, hget', threadStep]
      have hsl : (applyStep c i).slot = none := by
        simp [applyStep, hget', threadStep]
      have hsf : (applyStep c i).slotFired = c.slotFired := by
        simp [applyStep, hget', threadStep]
      have hsts : (applyStep c i).stores = c.stores := by
        simp [applyStep, hget', threadStep]
      rw [hth, hsl, hsf, hsts]
      exact budgetAt_swap_out hb hlen hti (fun w' => rfl) (.wak (.swapped c.slot)) (fun w' => rfl)
    | swapped s =>
      have hth : (applyStep c i).threads = c.threads.set i (.wak (.cleared s)) := by
        simp [applyStep, hget', threadStep]
      have hsl : (applyStep c i).slot = c.slot := by
        simp [applyStep, hget', threadStep]
      have hsf : (applyStep c i).slotFired = c.slotFired := by
        simp [applyStep, hget', threadStep]
      have hsts : (applyStep c i).stores = c.stores := by
        simp [applyStep, hget', threadStep]
      rw [hth, hsl, hsf, hsts]
      exact budgetAt_set_same hb hlen hti (.wak (.cleared s)) (fun w' => rfl)
    | cleared s =>
      have hth : (applyStep c i).threads = c.threads.set i (.wak .done) := by
        simp [applyStep, hget', threadStep]
      have hsl : (applyStep c i).slot = c.slot := by
        simp [applyStep, hget', threadStep]
      have hsf : (applyStep c i).slotFired = s :: c.slotFired := by
        simp [applyStep, hget', threadStep]
      have hsts : (applyStep c i).stores = c.stores := by
        simp [applyStep, hget', threadStep]
      rw [hth, hsl, hsf, hsts]
      exact budgetAt_fire hb hlen hti (fun w' => rfl) (.wak .done) (fun w' => rfl)
    | done => simp [Thread.isDone] at hndone

theorem budget_init (ts : List Thread) (hinit : ∀ t ∈ ts, t.isInitial = true) :
    FireBudget (initConfig ts) := by
  intro w hw
  have hcz : (List.countP (Thread.holdsSaved w) ts) = 0 := by
    refine List.countP_eq_zero.mpr fun t hmem => ?_
    have := hinit t hmem
    cases t with
    | reg pc => cases pc <;> simp [Thread.isInitial] at this ⊢ <;> simp [Thread.holdsSaved]
    | wak pc => cases pc <;> simp [Thread.isInitial] at this ⊢ <;> simp [Thread.holdsSaved]
  show List.count w [] + ts.countP (Thread.holdsSaved w) +
    (if (none : Waker) = w then 1 else 0) ≤ List.count w []
  rw [hcz, if_neg (Ne.symm hw)]
  simp

theorem budget_reachable {ts : List Thread} {c : Config}
    (hinit : ∀ t ∈ ts, t.isInitial = true) (hr : Reachable ts c) : FireBudget c := by
  induction hr with
  | refl => exact budget_init ts hinit
  | tail _ hstep ih => exact budget_step ih hstep

theorem wake_path {c : Config} {i : Nat} (h0 : c.status = WAITING)
    (hi : c.threads.get? i = some (.wak .start)) :
    (applyStep c i).status = WAKING ∧
    (applyStep (applyStep c i) i).slot = none ∧
    (applyStep (applyStep (applyStep c i) i) i).status = WAITING ∧
    applyStep (applyStep (applyStep (applyStep c i) i) i) i =
      { status := WAITING, slot := none, threads := c.threads.set i (.wak .done),
        fired := c.slot :: c.fired, slotFired := c.slot :: c.slotFired,
        stores := c.stores } := by
  obtain ⟨hlen, -⟩ := List.get?_eq_some.mp hi
  have hget' : c.threads[i]? = some (.wak .start) := by
    rw [← List.get?_eq_getElem?]; exact hi
  have hlen1 : i < (c.threads.set i (.wak .acquired)).length := by simpa using hlen
  have hlen2 : i < (c.threads.set i (.wak (.swapped c.slot))).length := by simpa using hlen
  have hlen3 : i < (c.threads.set i (.wak (.cleared c.slot))).length := by simpa using hlen
  have e1 : applyStep c i =
      { status := WAKING, slot := c.slot,
        threads := c.threads.set i (.wak .acquired), fired := c.fired,
        slotFired := c.slotFired, stores := c.stores } := by
    simp [applyStep, hget', threadStep, h0]
    try decide
  have e2 : applyStep (applyStep c i) i =
      { status := WAKING, slot := none,
        threads := c.threads.set i (.wak (.swapped c.slot)), fired := c.fired,
        slotFired := c.slotFired, stores := c.stores } := by
    rw [e1]
    simp [applyStep, List.getElem?_set_self hlen, threadStep, List.set_set]
  have e3 : applyStep (applyStep (applyStep c i) i) i =
      { status := WAITING, slot := none,
        threads := c.threads.set i (.wak (.cleared c.slot)), fired := c.fired,
        slotFired := c.slotFired, stores := c.stores } := by
    rw [e2]
    simp [applyStep, List.getElem?_set_self hlen, threadStep, List.set_set]
    try decide
  have e4 : applyStep (applyStep (applyStep (applyStep c i) i) i) i =
      { status := WAITING, slot := none, threads := c.threads.set i (.wak .done),
        fired := c.slot :: c.fired, slotFired := c.slot :: c.slotFired,
        stores := c.stores } := by
    rw [e3]
    simp [applyStep, List.getElem?_set_self hlen, threadStep, List.set_set]
  exact ⟨by rw [e1], by rw [e2], by rw [e3], e4⟩

theorem register_fail_path {c : Config} {i : Nat} (h3 : c.status = 3)
    (hi : c.threads.get? i = some (.reg .mutated)) :
    (applyStep c i).status = 3 ∧
    (applyStep (applyStep c i) i).slot = none ∧
    applyStep (applyStep (applyStep (applyStep c i) i) i) i =
      { status := WAITING, slot := none, threads := c.threads.set i (.reg .done),
        fired := c.slot :: c.fired, slotFired := c.slot :: c.slotFired,
        stores := c.stores } := by
  obtain ⟨hlen, -⟩ := List.get?_eq_some.mp hi
  have hget' : c.threads[i]? = some (.reg .mutated) := by
    rw [← List.get?_eq_getElem?]; exact hi
  have hcas : ¬ c.status = REGISTERING := by rw [h3]; decide
  have e1 : applyStep c i =
      { status := 3, slot := c.slot,
        threads := c.threads.set i (.reg .casFailed), fired := c.fired,
        slotFired := c.slotFired, stores := c.stores } := by
    simp [applyStep, hget', threadStep, h3, REGISTERING]
  have e2 : applyStep (applyStep c i) i =
      { status := 3, slot := none,
        threads := c.threads.set i (.reg (.failSwapped c.slot)), fired := c.fired,
        slotFired := c.slotFired, stores := c.stores } := by
    rw [e1]
    simp [applyStep, List.getElem?_set_self hlen, threadStep, List.set_set]
  have e3 : applyStep (applyStep (applyStep c i) i) i =
      { status := WAITING, slot := none,
        threads := c.threads.set i (.reg (.failStored c.slot)), fired := c.fired,
        slotFired := c.slotFired, stores := c.stores } := by
    rw [e2]
    simp [applyStep, List.getElem?_set_self hlen, threadStep, List.set_set]
  have e4 : applyStep (applyStep (applyStep (applyStep c i) i) i) i =
      { status := WAITING, slot := none, threads := c.threads.set i (.reg .done),
        fired := c.slot :: c.fired, slotFired := c.slot :: c.slotFired,
        stores := c.stores } := by
    rw [e3]
    simp [applyStep, List.getElem?_set_self hlen, threadStep, List.set_set]
  exact ⟨by rw [e1], by rw [e2], e4⟩

/-- Claim C1: in any reachable configuration, a `register_ref` call that has
mutated the slot and is about to attempt the exit compare-and-swap
`REGISTERING → WAITING` can only observe the status `REGISTERING` or
`REGISTERING ||| WAKING`; when the compare-and-swap fails the observed status
is necessarily `REGISTERING ||| WAKING` (a concurrent `wake` arrived
mid-registration), and the call then swaps the stored waiter out of the slot —
leaving the no-op waker there — and fires exactly that waiter before
returning, so the wake is not silently dropped. -/
theorem C1_register_exit_protocol {ts : List Thread} {c : Config}
    (hinit : ∀ t ∈ ts, t.isInitial = true) (hr : Reachable ts c)
    (i : Nat) (hi : c.threads.get? i = some (.reg .mutated)) :
    (c.status = REGISTERING ∨ c.status = REGISTERING ||| WAKING) ∧
    (c.status ≠ REGISTERING →
      c.status = REGISTERING ||| WAKING ∧
      (applyStep (applyStep c i) i).slot = none ∧
      applyStep (applyStep (applyStep (applyStep c i) i) i) i =
        { status := WAITING, slot := none, threads := c.threads.set i (.reg .done),
          fired := c.slot :: c.fired, slotFired := c.slot :: c.slotFired,
          stores := c.stores }) := by
  have hInv : InvAt c.status c.threads := inv_reachable hinit hr
  obtain ⟨hr1, hw1, hall⟩ := invAt_reg_member hInv hi rfl
  have hstat := (hall _ (List.get?_mem hi)).1 rfl
  have h312 : (3 : Nat) = REGISTERING ||| WAKING := by decide
  constructor
  · rcases hstat with h | h
    · exact Or.inl h
    · exact Or.inr (h312 ▸ h)
  · intro hne
    have h3 : c.status = 3 := by
      rcases hstat with h | h
      · exact absurd h hne
      · exact h
    obtain ⟨-, hslot, hpath⟩ := register_fail_path h3 hi
    exact ⟨h312 ▸ h3, hslot, hpath⟩

/-- Witness for C1 at a concrete reachable configuration: one register call
runs to just before its exit compare-and-swap while a concurrent wake sets the
WAKING bit; the status it can then observe is `REGISTERING ||| WAKING`. -/
theorem C1_register_exit_protocol_witness :
    ((applyStep (applyStep (applyStep (initConfig
        [.reg (.start (some 1)), .wak .start]) 0) 0) 1).status = REGISTERING ∨
     (applyStep (applyStep (applyStep (initConfig
        [.reg (.start (some 1)), .wak .start]) 0) 0) 1).status =
       REGISTERING ||| WAKING) := by
  have s1 : Step (initConfig [.reg (.start (some 1)), .wak .start])
      (applyStep (initConfig [.reg (.start (some 1)), .wak .start]) 0) :=
    ⟨0, .reg (.start (some 1)), by decide, by decide, rfl⟩
  have s2 : Step (applyStep (initConfig [.reg (.start (some 1)), .wak .start]) 0)
      (applyStep (applyStep (initConfig [.reg (.start (some 1)), .wak .start]) 0) 0) :=
    ⟨0, .reg (.locked (some 1)), by decide, by decide, rfl⟩
  have s3 : Step (applyStep (applyStep (initConfig
        [.reg (.start (some 1)), .wak .start]) 0) 0)
      (applyStep (applyStep (applyStep (initConfig
        [.reg (.start (some 1)), .wak .start]) 0) 0) 1) :=
    ⟨1, .wak .start, by decide, by decide, rfl⟩
  exact (C1_register_exit_protocol (by decide)
    (Relation.ReflTransGen.tail (Relation.ReflTransGen.tail
      (Relation.ReflTransGen.tail Relation.ReflTransGen.refl s1) s2) s3)
    0 (by decide)).1

/-- Claim C6: `wake()` is safe to call with no preceding `register` — on a
fresh cell it fires only the no-op waker, notifying nothing; when it finds the
idle status it takes ownership of the slot by swapping the no-op waker in,
clears the WAKING bit it set, and fires the previously stored waiter; when it
finds a registration in progress it only sets the WAKING bit and returns
without touching the slot or firing anything. -/
theorem C6_wake_behaviour :
    ((applyStep (applyStep (applyStep (applyStep
        (initConfig [.wak .start]) 0) 0) 0) 0).fired = [none] ∧
     (applyStep (applyStep (applyStep (applyStep
        (initConfig [.wak .start]) 0) 0) 0) 0).threads = [.wak .done]) ∧
    (∀ (c : Config) (i : Nat), c.status = WAITING →
      c.threads.get? i = some (.wak .start) →
      (applyStep c i).status = WAKING ∧
      (applyStep (applyStep c i) i).slot = none ∧
      (applyStep (applyStep (applyStep c i) i) i).status = WAITING ∧
      applyStep (applyStep (applyStep (applyStep c i) i) i) i =
        { status := WAITING, slot := none, threads := c.threads.set i (.wak .done),
          fired := c.slot :: c.fired, slotFired := c.slot :: c.slotFired,
          stores := c.stores }) ∧
    (∀ (c : Config) (i : Nat),
      (c.status = REGISTERING ∨ c.status = REGISTERING ||| WAKING) →
      c.threads.get? i = some (.wak .start) →
      applyStep c i =
        { c with
          status := c.status ||| WAKING,
          threads := c.threads.set i (.wak .done) }) := by
  refine ⟨by decide, fun c i h0 hi => wake_path h0 hi, fun c i hst hi => ?_⟩
  have hget' : c.threads[i]? = some (.wak .start) := by
    rw [← List.get?_eq_getElem?]; exact hi
  have h0 : ¬ c.status = WAITING := by
    rcases hst with h | h <;> rw [h] <;> decide
  simp [applyStep, hget', threadStep, h0]

/-- Witness for C6 at a concrete input: a `wake` arriving while a registration
holds the cell only sets the WAKING bit and fires nothing. -/
theorem C6_wake_behaviour_witness :
    applyStep (Config.mk REGISTERING none [.wak .start] [] [] []) 0 =
      Config.mk (REGISTERING ||| WAKING) none [.wak .done] [] [] [] :=
  C6_wake_behaviour.2.2 (Config.mk REGISTERING none [.wak .start] [] [] []) 0
    (Or.inl rfl) (by decide)

/-- Counterexample to claim C7 as stated: when `register` is invoked while the
status already shows the REGISTERING bit (here: a second register call racing
the first one, which holds the lock), the call completes without firing the
passed-in waiter at all — `fired` stays empty — rather than firing it once as
the claim asserts. -/
theorem C7_counterexample :
    (applyStep (applyStep (initConfig
        [.reg (.start (some 1)), .reg (.start (some 2))]) 0) 1).fired = [] ∧
    (applyStep (applyStep (initConfig
        [.reg (.start (some 1)), .reg (.start (some 2))]) 0) 1).threads =
      [.reg (.locked (some 1)), .reg .done] ∧
    (applyStep (initConfig [.reg (.start (some 1)), .reg (.start (some 2))]) 0).status =
      REGISTERING := by
  decide

/-- Claim C7 (amended): if `register` is invoked while another registration is
already in flight (the status shows the REGISTERING bit), it performs no state
change and drops the call without firing any waker; the passed-in waker is
fired immediately (with no other state change) only when the observed status
is exactly WAKING. -/
theorem C7_register_in_flight (c : Config) (i : Nat) (w : Waker)
    (hi : c.threads.get? i = some (.reg (.start w))) :
    ((c.status = REGISTERING ∨ c.status = REGISTERING ||| WAKING) →
      applyStep c i = { c with threads := c.threads.set i (.reg .done) }) ∧
    (c.status = WAKING →
      applyStep c i =
        { c with
          threads := c.threads.set i (.reg .done),
          fired := w :: c.fired }) := by
  have hget' : c.threads[i]? = some (.reg (.start w)) := by
    rw [← List.get?_eq_getElem?]; exact hi
  constructor
  · intro hst
    have h0 : ¬ c.status = WAITING := by rcases hst with h | h <;> rw [h] <;> decide
    have h2 : ¬ c.status = WAKING := by rcases hst with h | h <;> rw [h] <;> decide
    have hts : threadStep (.reg (.start w)) c.status c.slot =
        ⟨.reg .done, c.status, c.slot, none, false, none⟩ := by
      simp only [threadStep]; rw [if_neg h0, if_neg h2]
    simp [applyStep, hget', hts]
  · intro h2
    have h0 : ¬ c.status = WAITING := by rw [h2]; decide
    have hts : threadStep (.reg (.start w)) c.status c.slot =
        ⟨.reg .done, c.status, c.slot, some w, false, none⟩ := by
      simp only [threadStep]; rw [if_neg h0, if_pos h2]
    simp [applyStep, hget', hts]

/-- Witness for the amended C7 at concrete inputs: with the REGISTERING bit
set the call is dropped silently; with status WAKING the passed-in waker is
fired. -/
theorem C7_register_in_flight_witness :
    applyStep (Config.mk 3 (some 1) [.reg (.start (some 2))] [] [] []) 0 =
      Config.mk 3 (some 1) [.reg .done] [] [] [] ∧
    applyStep (Config.mk WAKING (some 1) [.reg (.start (some 2))] [] [] []) 0 =
      Config.mk WAKING (some 1) [.reg .done] [some 2] [] [] :=
  ⟨(C7_register_in_flight (Config.mk 3 (some 1) [.reg (.start (some 2))] [] [] [])
      0 (some 2) (by decide)).1 (Or.inr (by decide)),
   (C7_register_in_flight (Config.mk WAKING (some 1) [.reg (.start (some 2))] [] [] [])
      0 (some 2) (by decide)).2 rfl⟩

/-- Claim C10: a fresh cell's slot holds the no-op waker; every firing path —
`wake` finding the idle status, and `register`'s failed exit
compare-and-swap — first swaps the no-op waker into the slot, capturing the
old content, and then fires exactly the captured waker; hence in every
reachable configuration each non-noop waker has been fired from the slot at
most as often as a registration stored it, and a `wake` running with the slot
already holding the no-op waker (no register since the previous firing)
invokes only the no-op waker. -/
theorem C10_fire_at_most_once :
    (∀ ts : List Thread, (initConfig ts).slot = none) ∧
    (∀ (st : Nat) (sl : Waker), threadStep (.wak .acquired) st sl =
      ⟨.wak (.swapped sl), st, none, none, false, none⟩) ∧
    (∀ (st : Nat) (sl : Waker), threadStep (.reg .casFailed) st sl =
      ⟨.reg (.failSwapped sl), st, none, none, false, none⟩) ∧
    (∀ (st : Nat) (sl s : Waker), threadStep (.wak (.cleared s)) st sl =
      ⟨.wak .done, st, sl, some s, true, none⟩) ∧
    (∀ (st : Nat) (sl s : Waker), threadStep (.reg (.failStored s)) st sl =
      ⟨.reg .done, st, sl, some s, true, none⟩) ∧
    (∀ (ts : List Thread) (c : Config), (∀ t ∈ ts, t.isInitial = true) →
      Reachable ts c → ∀ w : Waker, w ≠ none →
      c.slotFired.count w ≤ c.stores.count w) ∧
    (∀ (c : Config) (i : Nat), c.slot = none → c.status = WAITING →
      c.threads.get? i = some (.wak .start) →
      (applyStep (applyStep (applyStep (applyStep c i) i) i) i).fired =
        none :: c.fired) := by
  refine ⟨fun ts => rfl, fun st sl => rfl, fun st sl => rfl, fun st sl s => rfl,
    fun st sl s => rfl, fun ts c hinit hr w hw => ?_, fun c i hsl h0 hi => ?_⟩
  · have hbud := budget_reachable hinit hr w hw
    omega
  · obtain ⟨-, -, -, hpath⟩ := wake_path h0 hi
    rw [hpath]
    show c.slot :: c.fired = none :: c.fired
    rw [hsl]

/-- Witness for C10 at a concrete input: waking a fresh cell twice in a row —
with no register in between — fires only the no-op waker. -/
theorem C10_fire_at_most_once_witness :
    (applyStep (applyStep (applyStep (applyStep
        (initConfig [.wak .start]) 0) 0) 0) 0).fired =
      none :: (initConfig [.wak .start]).fired :=
  C10_fire_at_most_once.2.2.2.2.2.2 (initConfig [.wak .start]) 0 rfl rfl (by decide)

/-- Claim C8 is contradicted by the code: when two handles are dropped
concurrently, both can sever their producer endpoints and then both read
`Arc::strong_count = 3 > 2` before either has released its own `Arc`
reference, so neither instance fires the wake.  The teardown below destroys
every handle (no producer endpoint remains, only the engine's own `Arc`
reference survives) yet `wakes = 0`: the engine is never woken, not woken
exactly once as the claim requires. -/
theorem C8_concurrent_drop_missed_wake :
    DropReachable 2
      { senders := 0, strong := 1, wakes := 0, threads := [.done, .done] } := by
  have s1 : DropStep (dropInit 2) (applyDropStep (dropInit 2) 0) :=
    ⟨0, .start, by decide, by decide, rfl⟩
  have s2 : DropStep (applyDropStep (dropInit 2) 0)
      (applyDropStep (applyDropStep (dropInit 2) 0) 1) :=
    ⟨1, .start, by decide, by decide, rfl⟩
  have s3 : DropStep (applyDropStep (applyDropStep (dropInit 2) 0) 1)
      (applyDropStep (applyDropStep (applyDropStep (dropInit 2) 0) 1) 0) :=
    ⟨0, .severed, by decide, by decide, rfl⟩
  have s4 : DropStep (applyDropStep (applyDropStep (applyDropStep (dropInit 2) 0) 1) 0)
      (applyDropStep (applyDropStep (applyDropStep (applyDropStep
        (dropInit 2) 0) 1) 0) 1) :=
    ⟨1, .severed, by decide, by decide, rfl⟩
  have s5 : DropStep (applyDropStep (applyDropStep (applyDropStep (applyDropStep
        (dropInit 2) 0) 1) 0) 1)
      (applyDropStep (applyDropStep (applyDropStep (applyDropStep (applyDropStep
        (dropInit 2) 0) 1) 0) 1) 0) :=
    ⟨0, .checked, by decide, by decide, rfl⟩
  have s6 : DropStep (applyDropStep (applyDropStep (applyDropStep (applyDropStep
        (applyDropStep (dropInit 2) 0) 1) 0) 1) 0)
      (applyDropStep (applyDropStep (applyDropStep (applyDropStep (applyDropStep
        (applyDropStep (dropInit 2) 0) 1) 0) 1) 0) 1) :=
    ⟨1, .checked, by decide, by decide, rfl⟩
  have hchain := Relation.ReflTransGen.tail (Relation.ReflTransGen.tail
    (Relation.ReflTransGen.tail (Relation.ReflTransGen.tail
      (Relation.ReflTransGen.tail (Relation.ReflTransGen.tail
        Relation.ReflTransGen.refl s1) s2) s3) s4) s5) s6
  have hfinal : applyDropStep (applyDropStep (applyDropStep (applyDropStep
      (applyDropStep (applyDropStep (dropInit 2) 0) 1) 0) 1) 0) 1 =
      { senders := 0, strong := 1, wakes := 0, threads := [.done, .done] } := by
    decide
  rw [← hfinal]
  exact hchain

end Pochta
